import Mathlib

/-!
Shallow embedding of whoopsie.py: a scraper bot that persists per-channel
work queues (toots for Mastodon, skeets for Bluesky) and a visited-url table
in a SQLite store, plus pure text-formatting helpers and the two CLI
commands (scrape and toot/post).

Python strings are modelled as Lean String where only equality of ids and
opaque contents matter (store rows), and as List Char where character-level
slicing and length arithmetic matter (the format helpers). SQLite tables are
modelled as Lean lists of row structures in insertion (rowid) order; the
textual CURRENT_TIMESTAMP column is modelled as a Nat whose order agrees
with the textual order.
-/

namespace Whoopsie

/-- Value returned by BotStore.next_toot: the PendingToot attrs class. -/
structure PendingToot where
  event_id : String
  content : String
deriving DecidableEq, Repr

/-- Value returned by BotStore.next_skeet: the PendingSkeet attrs class. -/
structure PendingSkeet where
  event_id : String
  content : String
  link : String
deriving DecidableEq, Repr

/-- Row of the toots table: event_id TEXT UNIQUE, timestamp TEXT DEFAULT
CURRENT_TIMESTAMP, content TEXT, pending INTEGER. -/
structure TootRow where
  event_id : String
  timestamp : Nat
  content : String
  pending : Bool
deriving DecidableEq, Repr

/-- Row of the skeets table: like TootRow plus link TEXT. -/
structure SkeetRow where
  event_id : String
  timestamp : Nat
  content : String
  link : String
  pending : Bool
deriving DecidableEq, Repr

/-- Row of the urls table: url TEXT UNIQUE, visited TIMESTAMP. -/
structure UrlRow where
  url : String
  visited : Nat
deriving DecidableEq, Repr

/-- The persistent store: the three tables created by the schema script,
each as a list of rows in rowid order. -/
structure BotStore where
  toots : List TootRow
  skeets : List SkeetRow
  urls : List UrlRow
deriving DecidableEq, Repr

/-- Generic single-row INSERT OR IGNORE: if some existing row has key k
(the UNIQUE column value), the insert is silently ignored; otherwise the
row is appended. -/
def insertIfNew {β : Type} (keyRow : β → String) (k : String) (row : β)
    (rows : List β) : List β :=
  if rows.any (fun r => keyRow r = k) then rows else rows ++ [row]

/-- Generic executemany of INSERT OR IGNORE statements, one per element of
l, in list order. keyRow reads the UNIQUE column of a stored row, key reads
the dedup key of an input, mk builds the stored row from an input. -/
def bulkInsert {α β : Type} (keyRow : β → String) (key : α → String)
    (mk : α → β) (rows : List β) (l : List α) : List β :=
  l.foldl (fun rs p => insertIfNew keyRow (key p) (mk p) rs) rows

/-- Generic SELECT ... ORDER BY timestamp ASC LIMIT 1 over an already
filtered row list: returns a row of minimal timestamp (the earliest-inserted
one on ties), or none on the empty list. -/
def selectOldest {β : Type} (ts : β → Nat) : List β → Option β
  | [] => none
  | r :: rs =>
    match selectOldest ts rs with
    | none => some r
    | some m => if ts r ≤ ts m then some r else some m

/-- BotStore.next_toot: SELECT event_id, content FROM toots WHERE pending
ORDER BY timestamp ASC LIMIT 1, packaged as a PendingToot (or none). -/
def next_toot (s : BotStore) : Option PendingToot :=
  (selectOldest (fun r => r.timestamp) (s.toots.filter (fun r => r.pending))).map
    (fun r => { event_id := r.event_id, content := r.content })

/-- BotStore.next_skeet: SELECT event_id, content, link FROM skeets WHERE
pending ORDER BY timestamp ASC LIMIT 1, packaged as a PendingSkeet. -/
def next_skeet (s : BotStore) : Option PendingSkeet :=
  (selectOldest (fun r => r.timestamp) (s.skeets.filter (fun r => r.pending))).map
    (fun r => { event_id := r.event_id, content := r.content, link := r.link })

/-- BotStore.last_visit: SELECT visited FROM urls WHERE url = ?. -/
def last_visit (s : BotStore) (url : String) : Option Nat :=
  (s.urls.find? (fun r => r.url = url)).map (fun r => r.visited)

/-- BotStore.record_visit: executemany INSERT OR REPLACE INTO urls
VALUES(url, CURRENT_TIMESTAMP) — the conflicting row is deleted and the
fresh row appended, once per url in list order. -/
def record_visit (now : Nat) (urls : List String) (s : BotStore) : BotStore :=
  { s with urls := (urls.foldl
      (fun rs u => rs.filter (fun r => r.url ≠ u) ++ [{ url := u, visited := now }]) s.urls) }

/-- BotStore.save_toots: executemany INSERT OR IGNORE INTO toots
(event_id, content, pending) VALUES(:event_id, :content, TRUE); the
timestamp column takes its CURRENT_TIMESTAMP default, modelled by now. -/
def save_toots (now : Nat) (l : List PendingToot) (s : BotStore) : BotStore :=
  { s with toots := (bulkInsert (fun r => r.event_id) (fun p => p.event_id)
      (fun p => { event_id := p.event_id, timestamp := now, content := p.content,
                  pending := true }) s.toots l) }

/-- BotStore.save_skeets: executemany INSERT OR IGNORE INTO skeets
(event_id, content, link, pending) VALUES(..., TRUE). -/
def save_skeets (now : Nat) (l : List PendingSkeet) (s : BotStore) : BotStore :=
  { s with skeets := (bulkInsert (fun r => r.event_id) (fun p => p.event_id)
      (fun p => { event_id := p.event_id, timestamp := now, content := p.content,
                  link := p.link, pending := true }) s.skeets l) }

/-- BotStore.record_toot: UPDATE toots SET pending = FALSE WHERE
event_id = ?. -/
def record_toot (t : PendingToot) (s : BotStore) : BotStore :=
  { s with toots := (s.toots.map
      (fun r => if r.event_id = t.event_id then { r with pending := false } else r)) }

/-- BotStore.record_skeet: UPDATE skeets SET pending = FALSE WHERE
event_id = ?. -/
def record_skeet (k : PendingSkeet) (s : BotStore) : BotStore :=
  { s with skeets := (s.skeets.map
      (fun r => if r.event_id = k.event_id then { r with pending := false } else r)) }

/-- One public mutating operation of the store; next_toot, next_skeet and
last_visit are read-only queries and leave the store unchanged, so a
sequence of public operations is a list of these. -/
inductive StoreOp where
  | saveToots (now : Nat) (l : List PendingToot)
  | saveSkeets (now : Nat) (l : List PendingSkeet)
  | recordToot (t : PendingToot)
  | recordSkeet (k : PendingSkeet)
  | recordVisit (now : Nat) (urls : List String)
deriving Repr

/-- Apply one mutating store operation. -/
def applyOp (op : StoreOp) (s : BotStore) : BotStore :=
  match op with
  | .saveToots now l => save_toots now l s
  | .saveSkeets now l => save_skeets now l s
  | .recordToot t => record_toot t s
  | .recordSkeet k => record_skeet k s
  | .recordVisit now urls => record_visit now urls s

/-- Run a sequence of mutating store operations, first element first. -/
def runOps (ops : List StoreOp) (s : BotStore) : BotStore :=
  ops.foldl (fun st op => applyOp op st) s

/-- All store states reached while running ops from s, the initial state
included: the trace of intermediate states an execution passes through. -/
def statesAfter (s : BotStore) : List StoreOp → List BotStore
  | [] => [s]
  | op :: ops => s :: statesAfter (applyOp op s) ops

/-- Some row of the toots table carries this event_id. -/
def hasToot (s : BotStore) (eid : String) : Prop :=
  ∃ r ∈ s.toots, r.event_id = eid

/-- Some row of the skeets table carries this event_id. -/
def hasSkeet (s : BotStore) (eid : String) : Prop :=
  ∃ r ∈ s.skeets, r.event_id = eid

/-- Every toots row with this event_id has pending = false. -/
def tootDelivered (s : BotStore) (eid : String) : Prop :=
  ∀ r ∈ s.toots, r.event_id = eid → r.pending = false

/-- Every skeets row with this event_id has pending = false. -/
def skeetDelivered (s : BotStore) (eid : String) : Prop :=
  ∀ r ∈ s.skeets, r.event_id = eid → r.pending = false

/-- The UNIQUE constraint on toots.event_id: ids pairwise distinct. -/
def tootsUnique (s : BotStore) : Prop :=
  s.toots.Pairwise (fun a b => a.event_id ≠ b.event_id)

/-- The UNIQUE constraint on skeets.event_id: ids pairwise distinct. -/
def skeetsUnique (s : BotStore) : Prop :=
  s.skeets.Pairwise (fun a b => a.event_id ≠ b.event_id)

instance (s : BotStore) (eid : String) : Decidable (hasToot s eid) := by
  unfold hasToot; infer_instance

instance (s : BotStore) (eid : String) : Decidable (hasSkeet s eid) := by
  unfold hasSkeet; infer_instance

instance (s : BotStore) (eid : String) : Decidable (tootDelivered s eid) := by
  unfold tootDelivered; infer_instance

instance (s : BotStore) (eid : String) : Decidable (skeetDelivered s eid) := by
  unfold skeetDelivered; infer_instance

instance (s : BotStore) : Decidable (tootsUnique s) := by
  unfold tootsUnique; infer_instance

instance (s : BotStore) : Decidable (skeetsUnique s) := by
  unfold skeetsUnique; infer_instance

/-! Text helpers. Python strings are sequences of characters; here they are
List Char so that slicing and length arithmetic match Python exactly,
negative slice bounds included. -/

/-- Python str.replace of the two-character sequence carriage-return
line-feed by a line-feed, scanning left to right. -/
def replaceCRLF : List Char → List Char
  | '\r' :: '\n' :: rest => '\n' :: replaceCRLF rest
  | c :: rest => c :: replaceCRLF rest
  | [] => []

/-- Python slice text up to bound n: for nonnegative n the first n
characters, for negative n all but the last -n characters. -/
def pyTake (l : List Char) (n : Int) : List Char :=
  if 0 ≤ n then l.take n.toNat else l.take (l.length - (-n).toNat)

/-- Python str.strip(): drop whitespace from both ends. -/
def pyStrip (l : List Char) : List Char :=
  ((l.dropWhile Char.isWhitespace).reverse.dropWhile Char.isWhitespace).reverse

/-- format_toot text url maxlen: normalize line endings, slice the text to
maxlen - 23 - 3 characters, strip it, append one ellipsis iff the
normalized text was longer than that budget, then a newline and the url.
The default for maxlen at the call sites is 500. -/
def format_toot (text url : List Char) (maxlen : Int) : List Char :=
  let url_len : Int := 23
  let max_text_len : Int := maxlen - url_len - 3
  let t := replaceCRLF text
  let ellipsis : List Char := if max_text_len < (t.length : Int) then [Char.ofNat 8230] else []
  pyStrip (pyTake t max_text_len) ++ ellipsis ++ '\n' :: url

/-- truncate text maxlen: if the text is longer than maxlen, keep the first
maxlen - 1 characters and append one ellipsis; otherwise return it as is.
The call site uses maxlen = 300. -/
def truncate (text : List Char) (maxlen : Int) : List Char :=
  if maxlen < (text.length : Int) then pyTake text (maxlen - 1) ++ [Char.ofNat 8230] else text

/-- The EventInfo attrs class: optional date and location fields plus the
headline and body extracted from one event div. -/
structure EventInfo where
  event_date : Option String
  facility : Option String
  city : Option String
  state : Option String
  headline : String
  content : String
deriving DecidableEq, Repr

/-- Python truthiness of an optional string field: None and the empty
string are falsy, every other string is truthy. -/
def truthy : Option String → Bool
  | none => false
  | some s => !(s = "")

/-- EventInfo.location: the priority-ordered fallback chain of the
location property, each test using Python truthiness of the field. -/
def location (e : EventInfo) : String :=
  if truthy e.facility ∧ truthy e.state then
    e.facility.getD "" ++ " (" ++ e.state.getD "" ++ ")"
  else if truthy e.facility then e.facility.getD ""
  else if truthy e.city ∧ truthy e.state then
    e.city.getD "" ++ ", " ++ e.state.getD ""
  else if truthy e.city then e.city.getD ""
  else if truthy e.state then e.state.getD ""
  else "Location unknown"

/-! The toot command. Remote collaborators (the Mastodon client, the
Bluesky client) are opaque fallible calls, passed in as functions to
Except; every remote interaction the command performs is logged in calls.
Printed lines are collected in outputs. A raised delivery exception
propagates: it stops the command, recorded in error. -/

/-- One remote interaction with a delivery channel. -/
inductive RemoteCall where
  | mastodonPost (content : String)
  | bskyLogin
  | bskyPost (content link : String)
deriving DecidableEq, Repr

/-- Observable outcome of one toot command invocation: the final store,
the printed lines in order, the remote calls in order, and the propagated
exception when one was raised. -/
structure TootResult where
  store : BotStore
  outputs : List String
  calls : List RemoteCall
  error : Option String
deriving Repr

/-- Printed representation of the Bluesky external-card object built from
the link; its exact text comes from the external library and is opaque
here beyond containing the link. -/
def cardRepr (link : String) : String :=
  "External card uri=" ++ link

/-- Mastodon section of the toot command: claim next_toot; if present and
the channel is enabled, construct the client, then either print the content
(dry run) or post, mark delivered and print the receipt url; a failed post
raises. -/
def mastoStep (s : BotStore) (dryRun postMasto : Bool)
    (mastoDeliver : String → Except String String) : TootResult :=
  match next_toot s with
  | none => { store := s, outputs := [], calls := [], error := none }
  | some t =>
    if postMasto then
      if dryRun then
        { store := s, outputs := [t.content], calls := [], error := none }
      else
        match mastoDeliver t.content with
        | .error e =>
          { store := s, outputs := [], calls := [RemoteCall.mastodonPost t.content],
            error := some e }
        | .ok receipt =>
          { store := record_toot t s, outputs := [receipt],
            calls := [RemoteCall.mastodonPost t.content], error := none }
    else { store := s, outputs := [], calls := [], error := none }

/-- Bluesky section of the toot command: claim next_skeet; if present and
the channel is enabled, log in (a remote call made before the dry-run test,
which raises on failure), build the card, then either print content and
card (dry run) or post, mark delivered and print the receipt uri; a failed
post raises. -/
def bskyStep (s : BotStore) (dryRun postBsky : Bool)
    (loginResult : Except String Unit)
    (bskyDeliver : String → String → Except String String) : TootResult :=
  match next_skeet s with
  | none => { store := s, outputs := [], calls := [], error := none }
  | some k =>
    if postBsky then
      match loginResult with
      | .error e =>
        { store := s, outputs := [], calls := [RemoteCall.bskyLogin], error := some e }
      | .ok _ =>
        if dryRun then
          { store := s, outputs := [k.content, cardRepr k.link],
            calls := [RemoteCall.bskyLogin], error := none }
        else
          match bskyDeliver k.content k.link with
          | .error e =>
            { store := s, outputs := [],
              calls := [RemoteCall.bskyLogin, RemoteCall.bskyPost k.content k.link],
              error := some e }
          | .ok receipt =>
            { store := record_skeet k s, outputs := [receipt],
              calls := [RemoteCall.bskyLogin, RemoteCall.bskyPost k.content k.link],
              error := none }
    else { store := s, outputs := [], calls := [], error := none }

/-- The toot command: the Mastodon section runs first; an exception raised
there propagates out of the command, so the Bluesky section runs only when
the Mastodon section raised nothing. -/
def tootCmd (s : BotStore) (dryRun postMasto postBsky : Bool)
    (mastoDeliver : String → Except String String)
    (loginResult : Except String Unit)
    (bskyDeliver : String → String → Except String String) : TootResult :=
  let r1 := mastoStep s dryRun postMasto mastoDeliver
  match r1.error with
  | some e => { store := r1.store, outputs := r1.outputs, calls := r1.calls, error := some e }
  | none =>
    let r2 := bskyStep r1.store dryRun postBsky loginResult bskyDeliver
    { store := r2.store, outputs := r1.outputs ++ r2.outputs,
      calls := r1.calls ++ r2.calls, error := r2.error }

/-- Classify a remote call by channel: true for the Bluesky calls. -/
def isBskyCall : RemoteCall → Bool
  | RemoteCall.bskyLogin => true
  | RemoteCall.bskyPost _ _ => true
  | RemoteCall.mastodonPost _ => false

/-- The scrape command as the ordered list of mutating store operations it
performs: nothing when the url was already visited or the fetch did not
return 200; otherwise save the extracted toots, then the extracted skeets,
then record the visit. The lists toots and skeets stand for the results of
page_as_toots and page_as_skeets on the fetched body (the HTML extraction
is an external collaborator). -/
def scrapeOps (s : BotStore) (url : String) (status : Nat)
    (toots : List PendingToot) (skeets : List PendingSkeet) (now : Nat) : List StoreOp :=
  if (last_visit s url).isSome then []
  else if status ≠ 200 then []
  else [StoreOp.saveToots now toots, StoreOp.saveSkeets now skeets,
        StoreOp.recordVisit now [url]]

/-! Concrete stores used to instantiate theorems with hypotheses. -/

/-- Small store with three pending toots and two pending skeets whose
timestamps increase with their event numbers; inserted out of order. -/
def exStore : BotStore :=
  { toots := [{ event_id := "en2", timestamp := 2, content := "c2", pending := true },
              { event_id := "en1", timestamp := 1, content := "c1", pending := true },
              { event_id := "en3", timestamp := 3, content := "c3", pending := true }],
    skeets := [{ event_id := "en2", timestamp := 2, content := "s2", link := "l2", pending := true },
               { event_id := "en1", timestamp := 1, content := "s1", link := "l1", pending := true },
               { event_id := "en3", timestamp := 3, content := "s3", link := "l3", pending := true }],
    urls := [] }

/-! Helper lemmas about the generic insert and oldest-selection. -/

theorem mem_insertIfNew_of_mem {β : Type} {keyRow : β → String} {k : String}
    {row : β} {rows : List β} {r : β} (h : r ∈ rows) :
    r ∈ insertIfNew keyRow k row rows := by
  unfold insertIfNew
  split <;> simp [h]

theorem mem_of_mem_insertIfNew {β : Type} {keyRow : β → String} {k : String}
    {row : β} {rows : List β} {r : β} (h : r ∈ insertIfNew keyRow k row rows) :
    r ∈ rows ∨ r = row := by
  unfold insertIfNew at h
  split at h
  · exact Or.inl h
  · rcases List.mem_append.mp h with h1 | h1
    · exact Or.inl h1
    · simp at h1
      exact Or.inr h1

theorem any_insertIfNew_of_any {β : Type} {keyRow : β → String} {k : String}
    {row : β} {rows : List β} {p : β → Bool} (h : rows.any p = true) :
    (insertIfNew keyRow k row rows).any p = true := by
  unfold insertIfNew
  split
  · exact h
  · simp only [List.any_append, h, Bool.true_or]

theorem any_key_insertIfNew {β : Type} {keyRow : β → String} {k : String}
    {row : β} {rows : List β} (hk : keyRow row = k) :
    (insertIfNew keyRow k row rows).any (fun r => keyRow r = k) = true := by
  unfold insertIfNew
  split
  · next hc => exact hc
  · simp [hk]

theorem insertIfNew_of_any {β : Type} {keyRow : β → String} {k : String}
    {row : β} {rows : List β}
    (h : rows.any (fun r => keyRow r = k) = true) :
    insertIfNew keyRow k row rows = rows := by
  unfold insertIfNew
  simp [h]

theorem filter_key_insertIfNew {β : Type} {keyRow : β → String} {k e : String}
    {row : β} {rows : List β} (hk : keyRow row = k)
    (h : rows.any (fun r => keyRow r = e) = true) :
    (insertIfNew keyRow k row rows).filter (fun r => keyRow r = e)
      = rows.filter (fun r => keyRow r = e) := by
  unfold insertIfNew
  split
  · rfl
  · next hc =>
    have hne : ¬(keyRow row = e) := by
      intro he
      apply hc
      rw [hk] at he
      subst he
      exact h
    rw [List.filter_append]
    simp [hne]

theorem pairwise_insertIfNew {β : Type} {keyRow : β → String} {k : String}
    {row : β} {rows : List β} (hk : keyRow row = k)
    (hp : rows.Pairwise (fun x y => keyRow x ≠ keyRow y)) :
    (insertIfNew keyRow k row rows).Pairwise (fun x y => keyRow x ≠ keyRow y) := by
  unfold insertIfNew
  split
  · exact hp
  · next hc =>
    rw [List.pairwise_append]
    refine ⟨hp, by simp, ?_⟩
    intro x hx y hy
    simp at hy
    subst hy
    simp at hc
    intro hxy
    exact (hc x hx) (hxy.trans hk)

theorem bulkInsert_nil {α β : Type} {keyRow : β → String} {key : α → String}
    {mk : α → β} {rows : List β} : bulkInsert keyRow key mk rows [] = rows := rfl

theorem bulkInsert_cons {α β : Type} {keyRow : β → String} {key : α → String}
    {mk : α → β} {rows : List β} {a : α} {l : List α} :
    bulkInsert keyRow key mk rows (a :: l)
      = bulkInsert keyRow key mk (insertIfNew keyRow (key a) (mk a) rows) l := rfl

theorem any_bulkInsert_of_any {α β : Type} {keyRow : β → String} {key : α → String}
    {mk : α → β} {p : β → Bool} :
    ∀ (l : List α) (rows : List β), rows.any p = true →
      (bulkInsert keyRow key mk rows l).any p = true
  | [], _, h => h
  | _ :: l, _, h =>
    any_bulkInsert_of_any l _ (any_insertIfNew_of_any h)

theorem any_key_bulkInsert_self {α β : Type} {keyRow : β → String} {key : α → String}
    {mk : α → β} (hmk : ∀ p, keyRow (mk p) = key p) :
    ∀ (l : List α) (rows : List β), ∀ p ∈ l,
      (bulkInsert keyRow key mk rows l).any (fun r => keyRow r = key p) = true := by
  intro l
  induction l with
  | nil => intro rows p hp; simp at hp
  | cons a l ih =>
    intro rows p hp
    rw [bulkInsert_cons]
    rcases List.mem_cons.mp hp with h | h
    · subst h
      exact any_bulkInsert_of_any l _ (any_key_insertIfNew (hmk p))
    · exact ih _ p h

theorem filter_key_bulkInsert {α β : Type} {keyRow : β → String} {key : α → String}
    {mk : α → β} {e : String} (hmk : ∀ p, keyRow (mk p) = key p) :
    ∀ (l : List α) (rows : List β), rows.any (fun r => keyRow r = e) = true →
      (bulkInsert keyRow key mk rows l).filter (fun r => keyRow r = e)
        = rows.filter (fun r => keyRow r = e) := by
  intro l
  induction l with
  | nil => intro rows _; rfl
  | cons a l ih =>
    intro rows h
    rw [bulkInsert_cons, ih _ (any_insertIfNew_of_any h),
        filter_key_insertIfNew (hmk a) h]

theorem bulkInsert_noop {α β : Type} {keyRow : β → String} {key : α → String}
    {mk : α → β} :
    ∀ (l : List α) (rows : List β),
      (∀ p ∈ l, rows.any (fun r => keyRow r = key p) = true) →
      bulkInsert keyRow key mk rows l = rows := by
  intro l
  induction l with
  | nil => intro rows _; rfl
  | cons a l ih =>
    intro rows h
    rw [bulkInsert_cons, insertIfNew_of_any (h a (List.mem_cons_self a l))]
    exact ih rows (fun p hp => h p (List.mem_cons_of_mem a hp))

theorem pairwise_bulkInsert {α β : Type} {keyRow : β → String} {key : α → String}
    {mk : α → β} (hmk : ∀ p, keyRow (mk p) = key p) :
    ∀ (l : List α) (rows : List β),
      rows.Pairwise (fun x y => keyRow x ≠ keyRow y) →
      (bulkInsert keyRow key mk rows l).Pairwise (fun x y => keyRow x ≠ keyRow y) := by
  intro l
  induction l with
  | nil => intro rows h; exact h
  | cons a l ih =>
    intro rows h
    rw [bulkInsert_cons]
    exact ih _ (pairwise_insertIfNew (hmk a) h)

theorem mem_bulkInsert {α β : Type} {keyRow : β → String} {key : α → String}
    {mk : α → β} :
    ∀ (l : List α) (rows : List β) (r : β), r ∈ bulkInsert keyRow key mk rows l →
      r ∈ rows ∨ ∃ p ∈ l, r = mk p := by
  intro l
  induction l with
  | nil => intro rows r h; exact Or.inl h
  | cons a l ih =>
    intro rows r h
    rw [bulkInsert_cons] at h
    rcases ih _ r h with h1 | h1
    · rcases mem_of_mem_insertIfNew h1 with h2 | h2
      · exact Or.inl h2
      · exact Or.inr ⟨a, List.mem_cons_self a l, h2⟩
    · rcases h1 with ⟨p, hp, hr⟩
      exact Or.inr ⟨p, List.mem_cons_of_mem a hp, hr⟩

theorem pairwise_filter_key_length_le_one {β : Type} {keyRow : β → String} {e : String} :
    ∀ {l : List β}, l.Pairwise (fun x y => keyRow x ≠ keyRow y) →
      (l.filter (fun r => keyRow r = e)).length ≤ 1 := by
  intro l
  induction l with
  | nil => intro _; simp
  | cons a l ih =>
    intro h
    rw [List.pairwise_cons] at h
    by_cases ha : keyRow a = e
    · have hnil : l.filter (fun r => keyRow r = e) = [] := by
        rw [List.filter_eq_nil_iff]
        intro b hb
        simp only [decide_eq_true_eq]
        intro hbe
        exact h.1 b hb (ha.trans hbe.symm)
      simp [List.filter_cons, ha, hnil]
    · simp only [List.filter_cons, ha]
      simpa using ih h.2

theorem any_filter_length_pos {β : Type} {p : β → Bool} {l : List β}
    (h : l.any p = true) : 0 < (l.filter p).length := by
  rw [List.any_eq_true] at h
  rcases h with ⟨x, hx, hp⟩
  have : x ∈ l.filter p := List.mem_filter.mpr ⟨hx, hp⟩
  exact List.length_pos.mpr (fun hnil => by rw [hnil] at this; simp at this)

theorem selectOldest_cons_isSome {β : Type} {ts : β → Nat} (a : β) (rs : List β) :
    (selectOldest ts (a :: rs)).isSome := by
  unfold selectOldest
  cases selectOldest ts rs with
  | none => rfl
  | some m => by_cases h : ts a ≤ ts m <;> simp [h]

theorem selectOldest_eq_nil {β : Type} {ts : β → Nat} {l : List β}
    (h : selectOldest ts l = none) : l = [] := by
  cases l with
  | nil => rfl
  | cons a rs =>
    have := @selectOldest_cons_isSome _ ts a rs
    rw [h] at this
    simp at this

theorem selectOldest_mem {β : Type} {ts : β → Nat} :
    ∀ {l : List β} {m : β}, selectOldest ts l = some m → m ∈ l := by
  intro l
  induction l with
  | nil => intro m h; simp [selectOldest] at h
  | cons r rs ih =>
    intro m h
    unfold selectOldest at h
    cases hrec : selectOldest ts rs with
    | none =>
      rw [hrec] at h
      simp at h
      subst h
      exact List.mem_cons_self r rs
    | some m2 =>
      rw [hrec] at h
      dsimp only at h
      by_cases hle : ts r ≤ ts m2
      · rw [if_pos hle] at h
        simp at h
        subst h
        exact List.mem_cons_self r rs
      · rw [if_neg hle] at h
        simp at h
        subst h
        exact List.mem_cons_of_mem r (ih hrec)

theorem selectOldest_min {β : Type} {ts : β → Nat} :
    ∀ {l : List β} {m : β}, selectOldest ts l = some m →
      ∀ r ∈ l, ts m ≤ ts r := by
  intro l
  induction l with
  | nil => intro m h; simp [selectOldest] at h
  | cons a rs ih =>
    intro m h r hr
    unfold selectOldest at h
    cases hrec : selectOldest ts rs with
    | none =>
      rw [hrec] at h
      simp at h
      subst h
      have hnil := selectOldest_eq_nil hrec
      subst hnil
      simp at hr
      subst hr
      exact le_refl _
    | some m2 =>
      rw [hrec] at h
      dsimp only at h
      by_cases hle : ts a ≤ ts m2
      · rw [if_pos hle] at h
        simp at h
        subst h
        rcases List.mem_cons.mp hr with h1 | h1
        · subst h1; exact le_refl _
        · exact le_trans hle (ih hrec r h1)
      · rw [if_neg hle] at h
        simp at h
        subst h
        rcases List.mem_cons.mp hr with h1 | h1
        · subst h1; exact le_of_lt (lt_of_not_le hle)
        · exact ih hrec r h1

theorem selectOldest_unique {β : Type} {ts : β → Nat} :
    ∀ {l : List β} {m : β}, m ∈ l → (∀ r ∈ l, r = m ∨ ts m < ts r) →
      selectOldest ts l = some m := by
  intro l
  induction l with
  | nil => intro m h; simp at h
  | cons a rs ih =>
    intro m hm hmin
    unfold selectOldest
    cases hrec : selectOldest ts rs with
    | none =>
      have hnil := selectOldest_eq_nil hrec
      subst hnil
      simp at hm
      subst hm
      rfl
    | some m2 =>
      have hm2 : m2 ∈ rs := selectOldest_mem hrec
      by_cases hma : m = a
      · subst hma
        have hle : ts m ≤ ts m2 := by
          rcases hmin m2 (List.mem_cons_of_mem _ hm2) with h1 | h1
          · rw [h1]
          · exact le_of_lt h1
        simp [hle]
      · have hmrs : m ∈ rs := by
          rcases List.mem_cons.mp hm with h1 | h1
          · exact absurd h1 hma
          · exact h1
        have hrs : selectOldest ts rs = some m :=
          ih hmrs (fun r hr => hmin r (List.mem_cons_of_mem _ hr))
        rw [hrec] at hrs
        have hm2m : m2 = m := by simpa using hrs
        subst hm2m
        have hlt : ts m2 < ts a := by
          rcases hmin a (List.mem_cons_self a rs) with h1 | h1
          · exact absurd h1.symm hma
          · exact h1
        have hnle : ¬ ts a ≤ ts m2 := not_le_of_lt hlt
        simp [hnle]

theorem mem_bulkInsert_of_mem {α β : Type} {keyRow : β → String} {key : α → String}
    {mk : α → β} :
    ∀ (l : List α) {rows : List β} {r : β}, r ∈ rows →
      r ∈ bulkInsert keyRow key mk rows l := by
  intro l
  induction l with
  | nil => intro rows r h; exact h
  | cons a l ih =>
    intro rows r h
    rw [bulkInsert_cons]
    exact ih (mem_insertIfNew_of_mem h)

/-! Frame lemmas: each store operation touches exactly one table. -/

theorem save_toots_skeets (now : Nat) (l : List PendingToot) (s : BotStore) :
    (save_toots now l s).skeets = s.skeets := rfl

theorem save_toots_urls (now : Nat) (l : List PendingToot) (s : BotStore) :
    (save_toots now l s).urls = s.urls := rfl

theorem save_skeets_toots (now : Nat) (l : List PendingSkeet) (s : BotStore) :
    (save_skeets now l s).toots = s.toots := rfl

theorem save_skeets_urls (now : Nat) (l : List PendingSkeet) (s : BotStore) :
    (save_skeets now l s).urls = s.urls := rfl

theorem record_toot_skeets (t : PendingToot) (s : BotStore) :
    (record_toot t s).skeets = s.skeets := rfl

theorem record_toot_urls (t : PendingToot) (s : BotStore) :
    (record_toot t s).urls = s.urls := rfl

theorem record_skeet_toots (k : PendingSkeet) (s : BotStore) :
    (record_skeet k s).toots = s.toots := rfl

theorem record_skeet_urls (k : PendingSkeet) (s : BotStore) :
    (record_skeet k s).urls = s.urls := rfl

theorem record_visit_toots (now : Nat) (urls : List String) (s : BotStore) :
    (record_visit now urls s).toots = s.toots := rfl

theorem record_visit_skeets (now : Nat) (urls : List String) (s : BotStore) :
    (record_visit now urls s).skeets = s.skeets := rfl

/-! Characterizations of the claim queries. -/

theorem next_toot_eq_of_unique_min {s : BotStore} {r : TootRow}
    (hr : r ∈ s.toots) (hp : r.pending = true)
    (hmin : ∀ x ∈ s.toots, x.pending = true → x = r ∨ r.timestamp < x.timestamp) :
    next_toot s = some { event_id := r.event_id, content := r.content } := by
  unfold next_toot
  have h1 : r ∈ s.toots.filter (fun x => x.pending) := List.mem_filter.mpr ⟨hr, hp⟩
  have h2 : ∀ x ∈ s.toots.filter (fun x => x.pending),
      x = r ∨ r.timestamp < x.timestamp := by
    intro x hx
    have hx2 := List.mem_filter.mp hx
    exact hmin x hx2.1 hx2.2
  rw [selectOldest_unique h1 h2]
  rfl

theorem next_toot_eq_none_of_no_pending {s : BotStore}
    (h : ∀ x ∈ s.toots, x.pending = false) : next_toot s = none := by
  unfold next_toot
  have hnil : s.toots.filter (fun x => x.pending) = [] :=
    List.filter_eq_nil_iff.mpr (fun a ha => by simp [h a ha])
  rw [hnil]
  rfl

theorem next_toot_spec {s : BotStore} {p : PendingToot} (h : next_toot s = some p) :
    ∃ r ∈ s.toots, r.pending = true ∧ r.event_id = p.event_id ∧ r.content = p.content := by
  unfold next_toot at h
  rcases Option.map_eq_some'.mp h with ⟨r, hsel, hmk⟩
  have hmem := List.mem_filter.mp (selectOldest_mem hsel)
  exact ⟨r, hmem.1, hmem.2, by rw [← hmk], by rw [← hmk]⟩

theorem next_skeet_eq_of_unique_min {s : BotStore} {r : SkeetRow}
    (hr : r ∈ s.skeets) (hp : r.pending = true)
    (hmin : ∀ x ∈ s.skeets, x.pending = true → x = r ∨ r.timestamp < x.timestamp) :
    next_skeet s = some { event_id := r.event_id, content := r.content, link := r.link } := by
  unfold next_skeet
  have h1 : r ∈ s.skeets.filter (fun x => x.pending) := List.mem_filter.mpr ⟨hr, hp⟩
  have h2 : ∀ x ∈ s.skeets.filter (fun x => x.pending),
      x = r ∨ r.timestamp < x.timestamp := by
    intro x hx
    have hx2 := List.mem_filter.mp hx
    exact hmin x hx2.1 hx2.2
  rw [selectOldest_unique h1 h2]
  rfl

theorem next_skeet_eq_none_of_no_pending {s : BotStore}
    (h : ∀ x ∈ s.skeets, x.pending = false) : next_skeet s = none := by
  unfold next_skeet
  have hnil : s.skeets.filter (fun x => x.pending) = [] :=
    List.filter_eq_nil_iff.mpr (fun a ha => by simp [h a ha])
  rw [hnil]
  rfl

theorem next_skeet_spec {s : BotStore} {p : PendingSkeet} (h : next_skeet s = some p) :
    ∃ r ∈ s.skeets, r.pending = true ∧ r.event_id = p.event_id ∧ r.content = p.content
      ∧ r.link = p.link := by
  unfold next_skeet at h
  rcases Option.map_eq_some'.mp h with ⟨r, hsel, hmk⟩
  have hmem := List.mem_filter.mp (selectOldest_mem hsel)
  exact ⟨r, hmem.1, hmem.2, by rw [← hmk], by rw [← hmk], by rw [← hmk]⟩

theorem next_skeet_congr {s t : BotStore} (h : s.skeets = t.skeets) :
    next_skeet s = next_skeet t := by
  unfold next_skeet
  rw [h]

theorem next_toot_congr {s t : BotStore} (h : s.toots = t.toots) :
    next_toot s = next_toot t := by
  unfold next_toot
  rw [h]

/-! Preservation of the delivered invariant by every public operation. -/

theorem save_toots_filter_key {s : BotStore} {eid : String} (now : Nat)
    (l : List PendingToot)
    (hany : s.toots.any (fun x => x.event_id = eid) = true) :
    (save_toots now l s).toots.filter (fun x => x.event_id = eid)
      = s.toots.filter (fun x => x.event_id = eid) :=
  @filter_key_bulkInsert PendingToot TootRow (fun r => r.event_id) (fun p => p.event_id)
    (fun p => { event_id := p.event_id, timestamp := now, content := p.content,
                pending := true })
    eid (fun _ => rfl) l s.toots hany

theorem save_skeets_filter_key {s : BotStore} {eid : String} (now : Nat)
    (l : List PendingSkeet)
    (hany : s.skeets.any (fun x => x.event_id = eid) = true) :
    (save_skeets now l s).skeets.filter (fun x => x.event_id = eid)
      = s.skeets.filter (fun x => x.event_id = eid) :=
  @filter_key_bulkInsert PendingSkeet SkeetRow (fun r => r.event_id) (fun p => p.event_id)
    (fun p => { event_id := p.event_id, timestamp := now, content := p.content,
                link := p.link, pending := true })
    eid (fun _ => rfl) l s.skeets hany

theorem hasToot_applyOp {s : BotStore} {eid : String} (op : StoreOp)
    (h : hasToot s eid) : hasToot (applyOp op s) eid := by
  rcases h with ⟨r, hr, hid⟩
  cases op with
  | saveToots now l => exact ⟨r, mem_bulkInsert_of_mem l hr, hid⟩
  | saveSkeets now l => exact ⟨r, hr, hid⟩
  | recordToot t =>
    refine ⟨if r.event_id = t.event_id then { r with pending := false } else r,
      List.mem_map_of_mem _ hr, ?_⟩
    split <;> simpa using hid
  | recordSkeet k => exact ⟨r, hr, hid⟩
  | recordVisit now urls => exact ⟨r, hr, hid⟩

theorem hasSkeet_applyOp {s : BotStore} {eid : String} (op : StoreOp)
    (h : hasSkeet s eid) : hasSkeet (applyOp op s) eid := by
  rcases h with ⟨r, hr, hid⟩
  cases op with
  | saveToots now l => exact ⟨r, hr, hid⟩
  | saveSkeets now l => exact ⟨r, mem_bulkInsert_of_mem l hr, hid⟩
  | recordToot t => exact ⟨r, hr, hid⟩
  | recordSkeet k =>
    refine ⟨if r.event_id = k.event_id then { r with pending := false } else r,
      List.mem_map_of_mem _ hr, ?_⟩
    split <;> simpa using hid
  | recordVisit now urls => exact ⟨r, hr, hid⟩

theorem tootDelivered_applyOp {s : BotStore} {eid : String} (op : StoreOp)
    (hh : hasToot s eid) (hd : tootDelivered s eid) :
    tootDelivered (applyOp op s) eid := by
  cases op with
  | saveToots now l =>
    intro r hr hid
    have hany : s.toots.any (fun x => x.event_id = eid) = true := by
      rw [List.any_eq_true]
      rcases hh with ⟨x, hx, hxe⟩
      exact ⟨x, hx, by simp [hxe]⟩
    have hmemf : r ∈ (save_toots now l s).toots.filter (fun x => x.event_id = eid) :=
      List.mem_filter.mpr ⟨hr, by simp [hid]⟩
    rw [save_toots_filter_key now l hany] at hmemf
    exact hd r (List.mem_filter.mp hmemf).1 hid
  | saveSkeets now l => exact hd
  | recordToot t =>
    intro r hr hid
    rcases List.mem_map.mp hr with ⟨x, hx, hxr⟩
    by_cases hxe : x.event_id = t.event_id
    · rw [← hxr]
      simp [hxe]
    · rw [← hxr] at hid ⊢
      simp only [hxe, if_neg, ite_false] at hid ⊢
      exact hd x hx hid
  | recordSkeet k => exact hd
  | recordVisit now urls => exact hd

theorem skeetDelivered_applyOp {s : BotStore} {eid : String} (op : StoreOp)
    (hh : hasSkeet s eid) (hd : skeetDelivered s eid) :
    skeetDelivered (applyOp op s) eid := by
  cases op with
  | saveToots now l => exact hd
  | saveSkeets now l =>
    intro r hr hid
    have hany : s.skeets.any (fun x => x.event_id = eid) = true := by
      rw [List.any_eq_true]
      rcases hh with ⟨x, hx, hxe⟩
      exact ⟨x, hx, by simp [hxe]⟩
    have hmemf : r ∈ (save_skeets now l s).skeets.filter (fun x => x.event_id = eid) :=
      List.mem_filter.mpr ⟨hr, by simp [hid]⟩
    rw [save_skeets_filter_key now l hany] at hmemf
    exact hd r (List.mem_filter.mp hmemf).1 hid
  | recordToot t => exact hd
  | recordSkeet k =>
    intro r hr hid
    rcases List.mem_map.mp hr with ⟨x, hx, hxr⟩
    by_cases hxe : x.event_id = k.event_id
    · rw [← hxr]
      simp [hxe]
    · rw [← hxr] at hid ⊢
      simp only [hxe, if_neg, ite_false] at hid ⊢
      exact hd x hx hid
  | recordVisit now urls => exact hd

theorem toot_done_runOps {s : BotStore} {eid : String} :
    ∀ (ops : List StoreOp), hasToot s eid → tootDelivered s eid →
      hasToot (runOps ops s) eid ∧ tootDelivered (runOps ops s) eid := by
  suffices h : ∀ (ops : List StoreOp) (t : BotStore), hasToot t eid → tootDelivered t eid →
      hasToot (runOps ops t) eid ∧ tootDelivered (runOps ops t) eid by
    intro ops hh hd
    exact h ops s hh hd
  intro ops
  induction ops with
  | nil => intro t hh hd; exact ⟨hh, hd⟩
  | cons op ops ih =>
    intro t hh hd
    exact ih (applyOp op t) (hasToot_applyOp op hh) (tootDelivered_applyOp op hh hd)

theorem skeet_done_runOps {s : BotStore} {eid : String} :
    ∀ (ops : List StoreOp), hasSkeet s eid → skeetDelivered s eid →
      hasSkeet (runOps ops s) eid ∧ skeetDelivered (runOps ops s) eid := by
  suffices h : ∀ (ops : List StoreOp) (t : BotStore), hasSkeet t eid → skeetDelivered t eid →
      hasSkeet (runOps ops t) eid ∧ skeetDelivered (runOps ops t) eid by
    intro ops hh hd
    exact h ops s hh hd
  intro ops
  induction ops with
  | nil => intro t hh hd; exact ⟨hh, hd⟩
  | cons op ops ih =>
    intro t hh hd
    exact ih (applyOp op t) (hasSkeet_applyOp op hh) (skeetDelivered_applyOp op hh hd)

theorem record_toot_delivered (t : PendingToot) (s : BotStore) :
    tootDelivered (record_toot t s) t.event_id := by
  intro r hr hid
  rcases List.mem_map.mp hr with ⟨x, hx, hxr⟩
  by_cases hxe : x.event_id = t.event_id
  · rw [← hxr]
    simp [hxe]
  · rw [← hxr] at hid
    simp only [hxe, if_neg, ite_false] at hid

theorem record_skeet_delivered (k : PendingSkeet) (s : BotStore) :
    skeetDelivered (record_skeet k s) k.event_id := by
  intro r hr hid
  rcases List.mem_map.mp hr with ⟨x, hx, hxr⟩
  by_cases hxe : x.event_id = k.event_id
  · rw [← hxr]
    simp [hxe]
  · rw [← hxr] at hid
    simp only [hxe, if_neg, ite_false] at hid

theorem record_toot_hasToot (t : PendingToot) {s : BotStore} {eid : String}
    (h : hasToot s eid) : hasToot (record_toot t s) eid :=
  hasToot_applyOp (StoreOp.recordToot t) h

theorem record_skeet_hasSkeet (k : PendingSkeet) {s : BotStore} {eid : String}
    (h : hasSkeet s eid) : hasSkeet (record_skeet k s) eid :=
  hasSkeet_applyOp (StoreOp.recordSkeet k) h

/-- C1: at-most-once delivery per entry. For an entry present in a channel
table, once record_toot (resp. record_skeet) has been applied to its
event_id, no subsequent sequence of public mutating store operations makes
next_toot (resp. next_skeet) return an entry with that event_id again, and
every row carrying that event_id keeps pending = false. -/
theorem claim_C1 (s : BotStore) (t : PendingToot) (k : PendingSkeet)
    (ops : List StoreOp)
    (ht : hasToot s t.event_id) (hk : hasSkeet s k.event_id) :
    (∀ p, next_toot (runOps ops (record_toot t s)) = some p → p.event_id ≠ t.event_id)
    ∧ tootDelivered (runOps ops (record_toot t s)) t.event_id
    ∧ (∀ p, next_skeet (runOps ops (record_skeet k s)) = some p → p.event_id ≠ k.event_id)
    ∧ skeetDelivered (runOps ops (record_skeet k s)) k.event_id := by
  have h1 := toot_done_runOps ops (record_toot_hasToot t ht) (record_toot_delivered t s)
  have h2 := skeet_done_runOps ops (record_skeet_hasSkeet k hk) (record_skeet_delivered k s)
  refine ⟨?_, h1.2, ?_, h2.2⟩
  · intro p hp hpe
    rcases next_toot_spec hp with ⟨r, hr, hpend, hid, _⟩
    have hfalse := h1.2 r hr (hid.trans hpe)
    rw [hpend] at hfalse
    exact absurd hfalse (by decide)
  · intro p hp hpe
    rcases next_skeet_spec hp with ⟨r, hr, hpend, hid, _⟩
    have hfalse := h2.2 r hr (hid.trans hpe)
    rw [hpend] at hfalse
    exact absurd hfalse (by decide)

/-- Witness for claim_C1: the delivered entry of exStore stays delivered and
unclaimable across a subsequent re-enqueue attempt of the same event_id. -/
theorem claim_C1_witness :
    hasToot exStore "en1" ∧ hasSkeet exStore "en1"
    ∧ tootDelivered
        (runOps [StoreOp.saveToots 9 [{ event_id := "en1", content := "dup" }]]
          (record_toot { event_id := "en1", content := "c1" } exStore)) "en1"
    ∧ skeetDelivered
        (runOps [StoreOp.saveSkeets 9 [{ event_id := "en1", content := "dup", link := "l" }]]
          (record_skeet { event_id := "en1", content := "s1", link := "l1" } exStore)) "en1" := by
  have h1 := claim_C1 exStore { event_id := "en1", content := "c1" }
    { event_id := "en1", content := "s1", link := "l1" }
    [StoreOp.saveToots 9 [{ event_id := "en1", content := "dup" }]]
    (by decide) (by decide)
  have h2 := claim_C1 exStore { event_id := "en1", content := "c1" }
    { event_id := "en1", content := "s1", link := "l1" }
    [StoreOp.saveSkeets 9 [{ event_id := "en1", content := "dup", link := "l" }]]
    (by decide) (by decide)
  exact ⟨by decide, by decide, h1.2.1, h2.2.2.2⟩

/-! Effect of the delivered-marking update on membership. -/

theorem record_toot_mem_pending {t : PendingToot} {s : BotStore} {x : TootRow}
    (hx : x ∈ (record_toot t s).toots) (hp : x.pending = true) :
    x ∈ s.toots ∧ x.event_id ≠ t.event_id := by
  rcases List.mem_map.mp hx with ⟨y, hy, hxy⟩
  by_cases hye : y.event_id = t.event_id
  · exfalso
    rw [← hxy, if_pos hye] at hp
    simp at hp
  · rw [← hxy, if_neg hye]
    exact ⟨hy, hye⟩

theorem record_toot_mem_of_ne {t : PendingToot} {s : BotStore} {y : TootRow}
    (hy : y ∈ s.toots) (hne : y.event_id ≠ t.event_id) :
    y ∈ (record_toot t s).toots := by
  have hid : (if y.event_id = t.event_id then { y with pending := false } else y) = y :=
    if_neg hne
  rw [← hid]
  exact List.mem_map_of_mem _ hy

theorem record_skeet_mem_pending {k : PendingSkeet} {s : BotStore} {x : SkeetRow}
    (hx : x ∈ (record_skeet k s).skeets) (hp : x.pending = true) :
    x ∈ s.skeets ∧ x.event_id ≠ k.event_id := by
  rcases List.mem_map.mp hx with ⟨y, hy, hxy⟩
  by_cases hye : y.event_id = k.event_id
  · exfalso
    rw [← hxy, if_pos hye] at hp
    simp at hp
  · rw [← hxy, if_neg hye]
    exact ⟨hy, hye⟩

theorem record_skeet_mem_of_ne {k : PendingSkeet} {s : BotStore} {y : SkeetRow}
    (hy : y ∈ s.skeets) (hne : y.event_id ≠ k.event_id) :
    y ∈ (record_skeet k s).skeets := by
  have hid : (if y.event_id = k.event_id then { y with pending := false } else y) = y :=
    if_neg hne
  rw [← hid]
  exact List.mem_map_of_mem _ hy

/-- C7: oldest-first claim order. If the pending rows of a channel table are
exactly three rows with strictly increasing timestamps, next_toot (resp.
next_skeet) returns the earliest one; after marking it delivered it returns
the second, then the third, then none â whatever order the rows sit in the
table â and on any store whose table holds no pending row the claim query
returns none. -/
theorem claim_C7 (s : BotStore) (r1 r2 r3 : TootRow) (q1 q2 q3 : SkeetRow)
    (hu : tootsUnique s) (hv : skeetsUnique s)
    (hm1 : r1 ∈ s.toots) (hm2 : r2 ∈ s.toots) (hm3 : r3 ∈ s.toots)
    (hp1 : r1.pending = true) (hp2 : r2.pending = true) (hp3 : r3.pending = true)
    (h12 : r1.timestamp < r2.timestamp) (h23 : r2.timestamp < r3.timestamp)
    (hall : ∀ x ∈ s.toots, x.pending = true → x = r1 ∨ x = r2 ∨ x = r3)
    (hn1 : q1 ∈ s.skeets) (hn2 : q2 ∈ s.skeets) (hn3 : q3 ∈ s.skeets)
    (hq1 : q1.pending = true) (hq2 : q2.pending = true) (hq3 : q3.pending = true)
    (g12 : q1.timestamp < q2.timestamp) (g23 : q2.timestamp < q3.timestamp)
    (gall : ∀ x ∈ s.skeets, x.pending = true → x = q1 ∨ x = q2 ∨ x = q3) :
    next_toot s = some { event_id := r1.event_id, content := r1.content }
    ∧ next_toot (record_toot { event_id := r1.event_id, content := r1.content } s)
        = some { event_id := r2.event_id, content := r2.content }
    ∧ next_toot (record_toot { event_id := r2.event_id, content := r2.content }
          (record_toot { event_id := r1.event_id, content := r1.content } s))
        = some { event_id := r3.event_id, content := r3.content }
    ∧ next_toot (record_toot { event_id := r3.event_id, content := r3.content }
          (record_toot { event_id := r2.event_id, content := r2.content }
            (record_toot { event_id := r1.event_id, content := r1.content } s)))
        = none
    ∧ next_skeet s = some { event_id := q1.event_id, content := q1.content, link := q1.link }
    ∧ next_skeet (record_skeet { event_id := q1.event_id, content := q1.content, link := q1.link } s)
        = some { event_id := q2.event_id, content := q2.content, link := q2.link }
    ∧ next_skeet (record_skeet { event_id := q2.event_id, content := q2.content, link := q2.link }
          (record_skeet { event_id := q1.event_id, content := q1.content, link := q1.link } s))
        = some { event_id := q3.event_id, content := q3.content, link := q3.link }
    ∧ next_skeet (record_skeet { event_id := q3.event_id, content := q3.content, link := q3.link }
          (record_skeet { event_id := q2.event_id, content := q2.content, link := q2.link }
            (record_skeet { event_id := q1.event_id, content := q1.content, link := q1.link } s)))
        = none
    ∧ (∀ s2 : BotStore, (∀ x ∈ s2.toots, x.pending = false) → next_toot s2 = none)
    ∧ (∀ s2 : BotStore, (∀ x ∈ s2.skeets, x.pending = false) → next_skeet s2 = none) := by
  have hsymmT : Symmetric (fun a b : TootRow => a.event_id ≠ b.event_id) :=
    fun a b h => h.symm
  have hsymmS : Symmetric (fun a b : SkeetRow => a.event_id ≠ b.event_id) :=
    fun a b h => h.symm
  have hne12 : r1 ≠ r2 := fun h => absurd (h ▸ h12) (lt_irrefl _)
  have hne23 : r2 ≠ r3 := fun h => absurd (h ▸ h23) (lt_irrefl _)
  have hne13 : r1 ≠ r3 := fun h => absurd (h ▸ (h12.trans h23)) (lt_irrefl _)
  have hid12 : r1.event_id ≠ r2.event_id := List.Pairwise.forall hsymmT hu hm1 hm2 hne12
  have hid23 : r2.event_id ≠ r3.event_id := List.Pairwise.forall hsymmT hu hm2 hm3 hne23
  have hid13 : r1.event_id ≠ r3.event_id := List.Pairwise.forall hsymmT hu hm1 hm3 hne13
  have gne12 : q1 ≠ q2 := fun h => absurd (h ▸ g12) (lt_irrefl _)
  have gne23 : q2 ≠ q3 := fun h => absurd (h ▸ g23) (lt_irrefl _)
  have gne13 : q1 ≠ q3 := fun h => absurd (h ▸ (g12.trans g23)) (lt_irrefl _)
  have gid12 : q1.event_id ≠ q2.event_id := List.Pairwise.forall hsymmS hv hn1 hn2 gne12
  have gid23 : q2.event_id ≠ q3.event_id := List.Pairwise.forall hsymmS hv hn2 hn3 gne23
  have gid13 : q1.event_id ≠ q3.event_id := List.Pairwise.forall hsymmS hv hn1 hn3 gne13
  refine ⟨?_, ?_, ?_, ?_, ?_, ?_, ?_, ?_, ?_, ?_⟩
  · exact next_toot_eq_of_unique_min hm1 hp1 (by
      intro x hx hpx
      rcases hall x hx hpx with h | h | h
      · exact Or.inl h
      · exact Or.inr (h ▸ h12)
      · exact Or.inr (h ▸ (h12.trans h23)))
  · apply next_toot_eq_of_unique_min (record_toot_mem_of_ne hm2 hid12.symm) hp2
    intro x hx hpx
    obtain ⟨hxs, hxne⟩ := record_toot_mem_pending hx hpx
    rcases hall x hxs hpx with h | h | h
    · exact absurd (h ▸ rfl : x.event_id = r1.event_id) hxne
    · exact Or.inl h
    · exact Or.inr (h ▸ h23)
  · apply next_toot_eq_of_unique_min
      (record_toot_mem_of_ne (record_toot_mem_of_ne hm3 hid13.symm) hid23.symm) hp3
    intro x hx hpx
    obtain ⟨hx1, hxne2⟩ := record_toot_mem_pending hx hpx
    obtain ⟨hxs, hxne1⟩ := record_toot_mem_pending hx1 hpx
    rcases hall x hxs hpx with h | h | h
    · exact absurd (h ▸ rfl : x.event_id = r1.event_id) hxne1
    · exact absurd (h ▸ rfl : x.event_id = r2.event_id) hxne2
    · exact Or.inl h
  · apply next_toot_eq_none_of_no_pending
    intro x hx
    cases hb : x.pending with
    | false => rfl
    | true =>
      exfalso
      obtain ⟨hx2, hxne3⟩ := record_toot_mem_pending hx hb
      obtain ⟨hx1, hxne2⟩ := record_toot_mem_pending hx2 hb
      obtain ⟨hxs, hxne1⟩ := record_toot_mem_pending hx1 hb
      rcases hall x hxs hb with h | h | h
      · exact absurd (h ▸ rfl : x.event_id = r1.event_id) hxne1
      · exact absurd (h ▸ rfl : x.event_id = r2.event_id) hxne2
      · exact absurd (h ▸ rfl : x.event_id = r3.event_id) hxne3
  · exact next_skeet_eq_of_unique_min hn1 hq1 (by
      intro x hx hpx
      rcases gall x hx hpx with h | h | h
      · exact Or.inl h
      · exact Or.inr (h ▸ g12)
      · exact Or.inr (h ▸ (g12.trans g23)))
  · apply next_skeet_eq_of_unique_min (record_skeet_mem_of_ne hn2 gid12.symm) hq2
    intro x hx hpx
    obtain ⟨hxs, hxne⟩ := record_skeet_mem_pending hx hpx
    rcases gall x hxs hpx with h | h | h
    · exact absurd (h ▸ rfl : x.event_id = q1.event_id) hxne
    · exact Or.inl h
    · exact Or.inr (h ▸ g23)
  · apply next_skeet_eq_of_unique_min
      (record_skeet_mem_of_ne (record_skeet_mem_of_ne hn3 gid13.symm) gid23.symm) hq3
    intro x hx hpx
    obtain ⟨hx1, hxne2⟩ := record_skeet_mem_pending hx hpx
    obtain ⟨hxs, hxne1⟩ := record_skeet_mem_pending hx1 hpx
    rcases gall x hxs hpx with h | h | h
    · exact absurd (h ▸ rfl : x.event_id = q1.event_id) hxne1
    · exact absurd (h ▸ rfl : x.event_id = q2.event_id) hxne2
    · exact Or.inl h
  · apply next_skeet_eq_none_of_no_pending
    intro x hx
    cases hb : x.pending with
    | false => rfl
    | true =>
      exfalso
      obtain ⟨hx2, hxne3⟩ := record_skeet_mem_pending hx hb
      obtain ⟨hx1, hxne2⟩ := record_skeet_mem_pending hx2 hb
      obtain ⟨hxs, hxne1⟩ := record_skeet_mem_pending hx1 hb
      rcases gall x hxs hb with h | h | h
      · exact absurd (h ▸ rfl : x.event_id = q1.event_id) hxne1
      · exact absurd (h ▸ rfl : x.event_id = q2.event_id) hxne2
      · exact absurd (h ▸ rfl : x.event_id = q3.event_id) hxne3
  · exact fun s2 h => next_toot_eq_none_of_no_pending h
  · exact fun s2 h => next_skeet_eq_none_of_no_pending h

/-- Witness for claim_C7 at exStore: claims come back in timestamp order
en1, en2, en3 and then none, for both channels. -/
theorem claim_C7_witness :
    next_toot exStore = some { event_id := "en1", content := "c1" }
    ∧ next_toot (record_toot { event_id := "en1", content := "c1" } exStore)
        = some { event_id := "en2", content := "c2" }
    ∧ next_toot (record_toot { event_id := "en2", content := "c2" } (record_toot { event_id := "en1", content := "c1" } exStore))
        = some { event_id := "en3", content := "c3" }
    ∧ next_toot (record_toot { event_id := "en3", content := "c3" } (record_toot { event_id := "en2", content := "c2" } (record_toot { event_id := "en1", content := "c1" } exStore)))
        = none
    ∧ next_skeet exStore = some { event_id := "en1", content := "s1", link := "l1" }
    ∧ next_skeet (record_skeet { event_id := "en1", content := "s1", link := "l1" } exStore)
        = some { event_id := "en2", content := "s2", link := "l2" }
    ∧ next_skeet (record_skeet { event_id := "en2", content := "s2", link := "l2" } (record_skeet { event_id := "en1", content := "s1", link := "l1" } exStore))
        = some { event_id := "en3", content := "s3", link := "l3" }
    ∧ next_skeet (record_skeet { event_id := "en3", content := "s3", link := "l3" } (record_skeet { event_id := "en2", content := "s2", link := "l2" } (record_skeet { event_id := "en1", content := "s1", link := "l1" } exStore)))
        = none := by
  have h := claim_C7 exStore
    { event_id := "en1", timestamp := 1, content := "c1", pending := true }
    { event_id := "en2", timestamp := 2, content := "c2", pending := true }
    { event_id := "en3", timestamp := 3, content := "c3", pending := true }
    { event_id := "en1", timestamp := 1, content := "s1", link := "l1", pending := true }
    { event_id := "en2", timestamp := 2, content := "s2", link := "l2", pending := true }
    { event_id := "en3", timestamp := 3, content := "s3", link := "l3", pending := true }
    (by decide) (by decide) (by decide) (by decide) (by decide)
    (by decide) (by decide) (by decide) (by decide) (by decide) (by decide)
    (by decide) (by decide) (by decide) (by decide) (by decide) (by decide)
    (by decide) (by decide) (by decide)
  exact ⟨h.1, h.2.1, h.2.2.1, h.2.2.2.1, h.2.2.2.2.1, h.2.2.2.2.2.1,
    h.2.2.2.2.2.2.1, h.2.2.2.2.2.2.2.1⟩

theorem botStore_ext {a b : BotStore} (h1 : a.toots = b.toots)
    (h2 : a.skeets = b.skeets) (h3 : a.urls = b.urls) : a = b := by
  cases a
  cases b
  simp_all

theorem save_toots_toots (now : Nat) (l : List PendingToot) (s : BotStore) :
    (save_toots now l s).toots
      = bulkInsert (fun r => r.event_id) (fun p => p.event_id)
          (fun p => { event_id := p.event_id, timestamp := now, content := p.content,
                      pending := true }) s.toots l := rfl

theorem save_skeets_skeets (now : Nat) (l : List PendingSkeet) (s : BotStore) :
    (save_skeets now l s).skeets
      = bulkInsert (fun r => r.event_id) (fun p => p.event_id)
          (fun p => { event_id := p.event_id, timestamp := now, content := p.content,
                      link := p.link, pending := true }) s.skeets l := rfl

/-- C2: idempotent enqueue with first-write-wins. Under the UNIQUE
constraint, saving the same entry list twice changes nothing the second
time; after one save every listed event_id has exactly one row; and an
insert whose event_id already exists leaves the rows with that event_id
(content, link, pending included) exactly as they were, with no error. -/
theorem claim_C2 (s : BotStore) (now1 now2 : Nat)
    (l : List PendingToot) (l2 : List PendingSkeet)
    (hu : tootsUnique s) (hv : skeetsUnique s) :
    save_toots now2 l (save_toots now1 l s) = save_toots now1 l s
    ∧ tootsUnique (save_toots now1 l s)
    ∧ (∀ p ∈ l, ((save_toots now1 l s).toots.filter
        (fun r => r.event_id = p.event_id)).length = 1)
    ∧ (∀ eid, hasToot s eid →
        (save_toots now1 l s).toots.filter (fun r => r.event_id = eid)
          = s.toots.filter (fun r => r.event_id = eid))
    ∧ save_skeets now2 l2 (save_skeets now1 l2 s) = save_skeets now1 l2 s
    ∧ skeetsUnique (save_skeets now1 l2 s)
    ∧ (∀ p ∈ l2, ((save_skeets now1 l2 s).skeets.filter
        (fun r => r.event_id = p.event_id)).length = 1)
    ∧ (∀ eid, hasSkeet s eid →
        (save_skeets now1 l2 s).skeets.filter (fun r => r.event_id = eid)
          = s.skeets.filter (fun r => r.event_id = eid)) := by
  have hallT : ∀ p ∈ l, (save_toots now1 l s).toots.any
      (fun r => r.event_id = p.event_id) = true := by
    intro p hp
    rw [save_toots_toots]
    exact @any_key_bulkInsert_self PendingToot TootRow (fun r => r.event_id)
      (fun p => p.event_id)
      (fun p => { event_id := p.event_id, timestamp := now1, content := p.content,
                  pending := true })
      (fun _ => rfl) l s.toots p hp
  have hallS : ∀ p ∈ l2, (save_skeets now1 l2 s).skeets.any
      (fun r => r.event_id = p.event_id) = true := by
    intro p hp
    rw [save_skeets_skeets]
    exact @any_key_bulkInsert_self PendingSkeet SkeetRow (fun r => r.event_id)
      (fun p => p.event_id)
      (fun p => { event_id := p.event_id, timestamp := now1, content := p.content,
                  link := p.link, pending := true })
      (fun _ => rfl) l2 s.skeets p hp
  have huT : tootsUnique (save_toots now1 l s) := by
    unfold tootsUnique
    rw [save_toots_toots]
    exact @pairwise_bulkInsert PendingToot TootRow (fun r => r.event_id)
      (fun p => p.event_id)
      (fun p => { event_id := p.event_id, timestamp := now1, content := p.content,
                  pending := true })
      (fun _ => rfl) l s.toots hu
  have huS : skeetsUnique (save_skeets now1 l2 s) := by
    unfold skeetsUnique
    rw [save_skeets_skeets]
    exact @pairwise_bulkInsert PendingSkeet SkeetRow (fun r => r.event_id)
      (fun p => p.event_id)
      (fun p => { event_id := p.event_id, timestamp := now1, content := p.content,
                  link := p.link, pending := true })
      (fun _ => rfl) l2 s.skeets hv
  refine ⟨?_, huT, ?_, ?_, ?_, huS, ?_, ?_⟩
  · apply botStore_ext
    · rw [save_toots_toots now2 l (save_toots now1 l s)]
      exact bulkInsert_noop l _ hallT
    · rfl
    · rfl
  · intro p hp
    have hle : ((save_toots now1 l s).toots.filter
        (fun r => r.event_id = p.event_id)).length ≤ 1 :=
      pairwise_filter_key_length_le_one huT
    have hpos : 0 < ((save_toots now1 l s).toots.filter
        (fun r => r.event_id = p.event_id)).length :=
      any_filter_length_pos (hallT p hp)
    omega
  · intro eid hh
    have hany : s.toots.any (fun x => x.event_id = eid) = true := by
      rw [List.any_eq_true]
      rcases hh with ⟨x, hx, hxe⟩
      exact ⟨x, hx, by simp [hxe]⟩
    exact save_toots_filter_key now1 l hany
  · apply botStore_ext
    · rfl
    · rw [save_skeets_skeets now2 l2 (save_skeets now1 l2 s)]
      exact bulkInsert_noop l2 _ hallS
    · rfl
  · intro p hp
    have hle : ((save_skeets now1 l2 s).skeets.filter
        (fun r => r.event_id = p.event_id)).length ≤ 1 :=
      pairwise_filter_key_length_le_one huS
    have hpos : 0 < ((save_skeets now1 l2 s).skeets.filter
        (fun r => r.event_id = p.event_id)).length :=
      any_filter_length_pos (hallS p hp)
    omega
  · intro eid hh
    have hany : s.skeets.any (fun x => x.event_id = eid) = true := by
      rw [List.any_eq_true]
      rcases hh with ⟨x, hx, hxe⟩
      exact ⟨x, hx, by simp [hxe]⟩
    exact save_skeets_filter_key now1 l2 hany

/-- Witness for claim_C2 at exStore with a batch mixing one duplicate and
one fresh event_id. -/
theorem claim_C2_witness :
    tootsUnique exStore ∧ skeetsUnique exStore
    ∧ save_toots 8 [⟨"en1", "dup"⟩, ⟨"en9", "new"⟩]
        (save_toots 7 [⟨"en1", "dup"⟩, ⟨"en9", "new"⟩] exStore)
      = save_toots 7 [⟨"en1", "dup"⟩, ⟨"en9", "new"⟩] exStore
    ∧ save_skeets 8 [⟨"en9", "new", "l"⟩] (save_skeets 7 [⟨"en9", "new", "l"⟩] exStore)
      = save_skeets 7 [⟨"en9", "new", "l"⟩] exStore := by
  have h := claim_C2 exStore 7 8 [⟨"en1", "dup"⟩, ⟨"en9", "new"⟩]
    [⟨"en9", "new", "l"⟩] (by decide) (by decide)
  exact ⟨by decide, by decide, h.1, h.2.2.2.2.1⟩

theorem list_map_id_of_mem {α : Type} {l : List α} {f : α → α}
    (h : ∀ x ∈ l, f x = x) : l.map f = l := by
  induction l with
  | nil => rfl
  | cons a l ih =>
    simp only [List.map_cons]
    rw [h a (List.mem_cons_self a l), ih (fun x hx => h x (List.mem_cons_of_mem a hx))]

/-- C10: markDelivered frame. record_toot (resp. record_skeet) changes at
most the pending field of the rows carrying the given event_id in its own
table: every row keeps its position, event_id, timestamp, content (and
link); the other two tables are untouched; and when no row carries the
event_id the operation is a no-op that still succeeds. -/
theorem claim_C10 (s : BotStore) (t : PendingToot) (k : PendingSkeet) :
    (record_toot t s).skeets = s.skeets
    ∧ (record_toot t s).urls = s.urls
    ∧ (∀ i : Nat, ((record_toot t s).toots[i]?).map (fun r => r.event_id)
        = (s.toots[i]?).map (fun r => r.event_id))
    ∧ (∀ i : Nat, ((record_toot t s).toots[i]?).map (fun r => r.timestamp)
        = (s.toots[i]?).map (fun r => r.timestamp))
    ∧ (∀ i : Nat, ((record_toot t s).toots[i]?).map (fun r => r.content)
        = (s.toots[i]?).map (fun r => r.content))
    ∧ (∀ i : Nat, ((record_toot t s).toots[i]?).map (fun r => r.pending)
        = (s.toots[i]?).map
            (fun r => if r.event_id = t.event_id then false else r.pending))
    ∧ ((∀ r ∈ s.toots, r.event_id ≠ t.event_id) → record_toot t s = s)
    ∧ (record_skeet k s).toots = s.toots
    ∧ (record_skeet k s).urls = s.urls
    ∧ (∀ i : Nat, ((record_skeet k s).skeets[i]?).map (fun r => r.event_id)
        = (s.skeets[i]?).map (fun r => r.event_id))
    ∧ (∀ i : Nat, ((record_skeet k s).skeets[i]?).map (fun r => r.timestamp)
        = (s.skeets[i]?).map (fun r => r.timestamp))
    ∧ (∀ i : Nat, ((record_skeet k s).skeets[i]?).map (fun r => r.content)
        = (s.skeets[i]?).map (fun r => r.content))
    ∧ (∀ i : Nat, ((record_skeet k s).skeets[i]?).map (fun r => r.link)
        = (s.skeets[i]?).map (fun r => r.link))
    ∧ (∀ i : Nat, ((record_skeet k s).skeets[i]?).map (fun r => r.pending)
        = (s.skeets[i]?).map
            (fun r => if r.event_id = k.event_id then false else r.pending))
    ∧ ((∀ r ∈ s.skeets, r.event_id ≠ k.event_id) → record_skeet k s = s) := by
  have hmapT : ∀ i : Nat, (record_toot t s).toots[i]?
      = (s.toots[i]?).map
          (fun r => if r.event_id = t.event_id then { r with pending := false } else r) := by
    intro i
    exact List.getElem?_map _ _ _
  have hmapS : ∀ i : Nat, (record_skeet k s).skeets[i]?
      = (s.skeets[i]?).map
          (fun r => if r.event_id = k.event_id then { r with pending := false } else r) := by
    intro i
    exact List.getElem?_map _ _ _
  refine ⟨rfl, rfl, ?_, ?_, ?_, ?_, ?_, rfl, rfl, ?_, ?_, ?_, ?_, ?_, ?_⟩
  · intro i
    rw [hmapT i]
    cases s.toots[i]? with
    | none => rfl
    | some r =>
      dsimp only [Option.map_some']
      by_cases h : r.event_id = t.event_id <;> simp [h]
  · intro i
    rw [hmapT i]
    cases s.toots[i]? with
    | none => rfl
    | some r =>
      dsimp only [Option.map_some']
      by_cases h : r.event_id = t.event_id <;> simp [h]
  · intro i
    rw [hmapT i]
    cases s.toots[i]? with
    | none => rfl
    | some r =>
      dsimp only [Option.map_some']
      by_cases h : r.event_id = t.event_id <;> simp [h]
  · intro i
    rw [hmapT i]
    cases s.toots[i]? with
    | none => rfl
    | some r =>
      dsimp only [Option.map_some']
      by_cases h : r.event_id = t.event_id <;> simp [h]
  · intro h
    apply botStore_ext
    · exact list_map_id_of_mem (fun x hx => if_neg (h x hx))
    · rfl
    · rfl
  · intro i
    rw [hmapS i]
    cases s.skeets[i]? with
    | none => rfl
    | some r =>
      dsimp only [Option.map_some']
      by_cases h : r.event_id = k.event_id <;> simp [h]
  · intro i
    rw [hmapS i]
    cases s.skeets[i]? with
    | none => rfl
    | some r =>
      dsimp only [Option.map_some']
      by_cases h : r.event_id = k.event_id <;> simp [h]
  · intro i
    rw [hmapS i]
    cases s.skeets[i]? with
    | none => rfl
    | some r =>
      dsimp only [Option.map_some']
      by_cases h : r.event_id = k.event_id <;> simp [h]
  · intro i
    rw [hmapS i]
    cases s.skeets[i]? with
    | none => rfl
    | some r =>
      dsimp only [Option.map_some']
      by_cases h : r.event_id = k.event_id <;> simp [h]
  · intro i
    rw [hmapS i]
    cases s.skeets[i]? with
    | none => rfl
    | some r =>
      dsimp only [Option.map_some']
      by_cases h : r.event_id = k.event_id <;> simp [h]
  · intro h
    apply botStore_ext
    · rfl
    · exact list_map_id_of_mem (fun x hx => if_neg (h x hx))
    · rfl

/-- Witness for claim_C10: marking an absent event_id is a successful
no-op on exStore, and the other tables stay untouched. -/
theorem claim_C10_witness :
    (record_toot { event_id := "zz", content := "x" } exStore).skeets = exStore.skeets
    ∧ record_toot { event_id := "zz", content := "x" } exStore = exStore
    ∧ record_skeet { event_id := "zz", content := "x", link := "l" } exStore = exStore := by
  have h := claim_C10 exStore { event_id := "zz", content := "x" }
    { event_id := "zz", content := "x", link := "l" }
  exact ⟨h.1, h.2.2.2.2.2.2.1 (by decide),
    h.2.2.2.2.2.2.2.2.2.2.2.2.2.2 (by decide)⟩

theorem save_toots_hasToot (now : Nat) (l : List PendingToot) (s : BotStore) :
    ∀ p ∈ l, hasToot (save_toots now l s) p.event_id := by
  intro p hp
  have h := @any_key_bulkInsert_self PendingToot TootRow (fun r => r.event_id)
    (fun p => p.event_id)
    (fun p => { event_id := p.event_id, timestamp := now, content := p.content,
                pending := true })
    (fun _ => rfl) l s.toots p hp
  rw [List.any_eq_true] at h
  rcases h with ⟨x, hx, hxe⟩
  exact ⟨x, hx, by simpa using hxe⟩

theorem save_skeets_hasSkeet (now : Nat) (l : List PendingSkeet) (s : BotStore) :
    ∀ p ∈ l, hasSkeet (save_skeets now l s) p.event_id := by
  intro p hp
  have h := @any_key_bulkInsert_self PendingSkeet SkeetRow (fun r => r.event_id)
    (fun p => p.event_id)
    (fun p => { event_id := p.event_id, timestamp := now, content := p.content,
                link := p.link, pending := true })
    (fun _ => rfl) l s.skeets p hp
  rw [List.any_eq_true] at h
  rcases h with ⟨x, hx, hxe⟩
  exact ⟨x, hx, by simpa using hxe⟩

/-- C3: in every execution of scrape, the visited marker for the page URL
is written only after the queue entries extracted from that page have been
persisted for both channels: along the whole trace of store states the
execution passes through, any state in which the URL is visited already
carries a queue row for every extracted entry of both channels. -/
theorem claim_C3 (s : BotStore) (url : String) (status : Nat)
    (toots : List PendingToot) (skeets : List PendingSkeet) (now : Nat)
    (hnv : last_visit s url = none) :
    ∀ st ∈ statesAfter s (scrapeOps s url status toots skeets now),
      (last_visit st url).isSome = true →
        (∀ p ∈ toots, hasToot st p.event_id)
        ∧ (∀ p ∈ skeets, hasSkeet st p.event_id) := by
  intro st hst hvis
  unfold scrapeOps at hst
  rw [hnv] at hst
  simp only [Option.isSome_none, Bool.false_eq_true, if_false] at hst
  by_cases h200 : status ≠ 200
  · rw [if_pos h200] at hst
    simp only [statesAfter, List.mem_singleton] at hst
    subst hst
    rw [hnv] at hvis
    simp at hvis
  · rw [if_neg h200] at hst
    simp only [statesAfter, applyOp, List.mem_cons, List.mem_singleton,
      List.not_mem_nil, or_false] at hst
    rcases hst with rfl | rfl | rfl | rfl
    · rw [hnv] at hvis
      simp at hvis
    · have hnv1 : last_visit (save_toots now toots s) url = none := hnv
      rw [hnv1] at hvis
      simp at hvis
    · have hnv2 : last_visit (save_skeets now skeets (save_toots now toots s)) url
          = none := hnv
      rw [hnv2] at hvis
      simp at hvis
    · constructor
      · intro p hp
        exact save_toots_hasToot now toots s p hp
      · intro p hp
        exact save_skeets_hasSkeet now skeets (save_toots now toots s) p hp

/-- Witness for claim_C3: a fresh scrape of a 200 response reaches the
final state with the marker set and both entries enqueued. -/
theorem claim_C3_witness :
    last_visit exStore "u" = none
    ∧ (∀ st ∈ statesAfter exStore
          (scrapeOps exStore "u" 200 [⟨"en7", "c7"⟩] [⟨"en7", "s7", "l7"⟩] 4),
        (last_visit st "u").isSome = true →
          (∀ p ∈ [(⟨"en7", "c7"⟩ : PendingToot)], hasToot st p.event_id)
          ∧ (∀ p ∈ [(⟨"en7", "s7", "l7"⟩ : PendingSkeet)], hasSkeet st p.event_id)) :=
  ⟨by decide,
   claim_C3 exStore "u" 200 [⟨"en7", "c7"⟩] [⟨"en7", "s7", "l7"⟩] 4 (by decide)⟩

/-! Properties of the two sections of the toot command. -/

theorem mastoStep_skeets (s : BotStore) (dr pm : Bool)
    (md : String → Except String String) :
    (mastoStep s dr pm md).store.skeets = s.skeets := by
  unfold mastoStep
  repeat first | rfl | split

theorem mastoStep_urls (s : BotStore) (dr pm : Bool)
    (md : String → Except String String) :
    (mastoStep s dr pm md).store.urls = s.urls := by
  unfold mastoStep
  repeat first | rfl | split

theorem bskyStep_toots (s : BotStore) (dr pb : Bool) (login : Except String Unit)
    (bd : String → String → Except String String) :
    (bskyStep s dr pb login bd).store.toots = s.toots := by
  unfold bskyStep
  repeat first | rfl | split

theorem mastoStep_calls_not_bsky (s : BotStore) (dr pm : Bool)
    (md : String → Except String String) :
    ∀ c ∈ (mastoStep s dr pm md).calls, isBskyCall c = false := by
  unfold mastoStep
  split
  · intro c hc
    simp at hc
  · split
    · split
      · intro c hc
        simp at hc
      · split
        · intro c hc
          simp at hc
          subst hc
          rfl
        · intro c hc
          simp at hc
          subst hc
          rfl
    · intro c hc
      simp at hc

theorem bskyStep_calls_bsky (s : BotStore) (dr pb : Bool) (login : Except String Unit)
    (bd : String → String → Except String String) :
    ∀ c ∈ (bskyStep s dr pb login bd).calls, isBskyCall c = true := by
  unfold bskyStep
  split
  · intro c hc
    simp at hc
  · split
    · split
      · intro c hc
        simp at hc
        subst hc
        rfl
      · split
        · intro c hc
          simp at hc
          subst hc
          rfl
        · split
          · intro c hc
            rcases List.mem_cons.mp hc with h | h
            · subst h
              rfl
            · simp at h
              subst h
              rfl
          · intro c hc
            rcases List.mem_cons.mp hc with h | h
            · subst h
              rfl
            · simp at h
              subst h
              rfl
    · intro c hc
      simp at hc

theorem mastoStep_dry (s : BotStore) (pm : Bool) (md : String → Except String String) :
    (mastoStep s true pm md).store = s
    ∧ (mastoStep s true pm md).calls = []
    ∧ (mastoStep s true pm md).error = none := by
  unfold mastoStep
  repeat first | exact ⟨rfl, rfl, rfl⟩ | split

theorem bskyStep_dry_store (s : BotStore) (pb : Bool) (login : Except String Unit)
    (bd : String → String → Except String String) :
    (bskyStep s true pb login bd).store = s := by
  unfold bskyStep
  repeat first | rfl | split

theorem bskyStep_dry_calls (s : BotStore) (pb : Bool) (login : Except String Unit)
    (bd : String → String → Except String String) :
    ∀ c ∈ (bskyStep s true pb login bd).calls, c = RemoteCall.bskyLogin := by
  unfold bskyStep
  split
  · intro c hc
    simp at hc
  · split
    · split
      · intro c hc
        simp at hc
        subst hc
        rfl
      · intro c hc
        simp at hc
        subst hc
        rfl
    · intro c hc
      simp at hc

theorem bskyStep_congr_skeets {s s2 : BotStore} (h : s.skeets = s2.skeets)
    (dr pb : Bool) (login : Except String Unit)
    (bd : String → String → Except String String) :
    (bskyStep s dr pb login bd).store.skeets = (bskyStep s2 dr pb login bd).store.skeets
    ∧ (bskyStep s dr pb login bd).outputs = (bskyStep s2 dr pb login bd).outputs
    ∧ (bskyStep s dr pb login bd).calls = (bskyStep s2 dr pb login bd).calls
    ∧ (bskyStep s dr pb login bd).error = (bskyStep s2 dr pb login bd).error := by
  have hns : next_skeet s = next_skeet s2 := next_skeet_congr h
  rcases hnt : next_skeet s2 with _ | k
  · unfold bskyStep
    rw [hns, hnt]
    exact ⟨h, rfl, rfl, rfl⟩
  · unfold bskyStep
    rw [hns, hnt]
    dsimp only
    split
    · cases login with
      | error e => exact ⟨h, rfl, rfl, rfl⟩
      | ok u =>
        dsimp only
        split
        · exact ⟨h, rfl, rfl, rfl⟩
        · rcases hbd : bd k.content k.link with e | receipt
          · exact ⟨h, rfl, rfl, rfl⟩
          · refine ⟨?_, rfl, rfl, rfl⟩
            show (record_skeet k s).skeets = (record_skeet k s2).skeets
            unfold record_skeet
            dsimp only
            rw [h]
    · exact ⟨h, rfl, rfl, rfl⟩

theorem tootCmd_toots (s : BotStore) (dr pm pb : Bool)
    (md : String → Except String String) (login : Except String Unit)
    (bd : String → String → Except String String) :
    (tootCmd s dr pm pb md login bd).store.toots = (mastoStep s dr pm md).store.toots := by
  simp only [tootCmd]
  cases herr : (mastoStep s dr pm md).error with
  | some e => rfl
  | none => exact bskyStep_toots (mastoStep s dr pm md).store dr pb login bd

theorem tootCmd_calls_masto (s : BotStore) (dr pm pb : Bool)
    (md : String → Except String String) (login : Except String Unit)
    (bd : String → String → Except String String) :
    (tootCmd s dr pm pb md login bd).calls.filter (fun c => !(isBskyCall c))
      = (mastoStep s dr pm md).calls.filter (fun c => !(isBskyCall c)) := by
  simp only [tootCmd]
  cases herr : (mastoStep s dr pm md).error with
  | some e => rfl
  | none =>
    dsimp only
    rw [List.filter_append]
    have h2 : ((bskyStep (mastoStep s dr pm md).store dr pb login bd).calls.filter
        (fun c => !(isBskyCall c))) = [] := by
      rw [List.filter_eq_nil_iff]
      intro c hc
      simp [bskyStep_calls_bsky (mastoStep s dr pm md).store dr pb login bd c hc]
    rw [h2, List.append_nil]

theorem tootCmd_no_masto_error (s : BotStore) (dr pm pb : Bool)
    (md : String → Except String String) (login : Except String Unit)
    (bd : String → String → Except String String)
    (herr : (mastoStep s dr pm md).error = none) :
    tootCmd s dr pm pb md login bd
      = { store := (bskyStep (mastoStep s dr pm md).store dr pb login bd).store,
          outputs := (mastoStep s dr pm md).outputs
            ++ (bskyStep (mastoStep s dr pm md).store dr pb login bd).outputs,
          calls := (mastoStep s dr pm md).calls
            ++ (bskyStep (mastoStep s dr pm md).store dr pb login bd).calls,
          error := (bskyStep (mastoStep s dr pm md).store dr pb login bd).error } := by
  simp only [tootCmd, herr]

theorem tootCmd_masto_error (s : BotStore) (dr pm pb : Bool)
    (md : String → Except String String) (login : Except String Unit)
    (bd : String → String → Except String String) (e : String)
    (herr : (mastoStep s dr pm md).error = some e) :
    tootCmd s dr pm pb md login bd
      = { store := (mastoStep s dr pm md).store,
          outputs := (mastoStep s dr pm md).outputs,
          calls := (mastoStep s dr pm md).calls,
          error := some e } := by
  simp only [tootCmd, herr]

/-- C4: a failed remote delivery call leaves the claimed entry pending and
undeleted, so the next invocation claims the same oldest entry: a Mastodon
post failure leaves the whole store untouched and propagates the error; a
Bluesky post failure (when the Mastodon section raised nothing) leaves the
skeets table untouched and propagates the error; in both cases the claim
query still returns the same entry afterwards. -/
theorem claim_C4 (s : BotStore) (pm pb : Bool)
    (md : String → Except String String) (login : Except String Unit)
    (bd : String → String → Except String String) :
    (∀ t e, next_toot s = some t → pm = true → md t.content = Except.error e →
      (tootCmd s false pm pb md login bd).store = s
      ∧ (tootCmd s false pm pb md login bd).error = some e
      ∧ next_toot (tootCmd s false pm pb md login bd).store = some t)
    ∧ (∀ k e, next_skeet s = some k → pb = true → login = Except.ok () →
        bd k.content k.link = Except.error e →
        (mastoStep s false pm md).error = none →
        (tootCmd s false pm pb md login bd).store.skeets = s.skeets
        ∧ (tootCmd s false pm pb md login bd).error = some e
        ∧ next_skeet (tootCmd s false pm pb md login bd).store = some k) := by
  constructor
  · intro t e ht hm hmd
    have hms : mastoStep s false pm md
        = { store := s, outputs := [], calls := [RemoteCall.mastodonPost t.content],
            error := some e } := by
      subst hm
      simp [mastoStep, ht, hmd]
    have hresult := tootCmd_masto_error s false pm pb md login bd e (by rw [hms])
    rw [hresult]
    refine ⟨by rw [hms], rfl, ?_⟩
    rw [hms]
    exact ht
  · intro k e hk hb hlogin hbd herr
    have hns : next_skeet (mastoStep s false pm md).store = some k := by
      rw [next_skeet_congr (mastoStep_skeets s false pm md)]
      exact hk
    have hbs : bskyStep (mastoStep s false pm md).store false pb login bd
        = { store := (mastoStep s false pm md).store, outputs := [],
            calls := [RemoteCall.bskyLogin, RemoteCall.bskyPost k.content k.link],
            error := some e } := by
      subst hb
      subst hlogin
      simp [bskyStep, hns, hbd]
    have hresult := tootCmd_no_masto_error s false pm pb md login bd herr
    rw [hresult, hbs]
    exact ⟨mastoStep_skeets s false pm md, rfl, hns⟩

/-- Witness for claim_C4 at exStore: both the Mastodon-failure case and the
Bluesky-failure case leave the claimed entry retrievable again. -/
theorem claim_C4_witness :
    next_toot exStore = some { event_id := "en1", content := "c1" }
    ∧ (tootCmd exStore false true true (fun _ => Except.error "boom") (Except.ok ())
        (fun _ _ => Except.ok "uri")).store = exStore
    ∧ next_toot (tootCmd exStore false true true (fun _ => Except.error "boom")
        (Except.ok ()) (fun _ _ => Except.ok "uri")).store
      = some { event_id := "en1", content := "c1" }
    ∧ next_skeet (tootCmd exStore false false true (fun _ => Except.ok "u")
        (Except.ok ()) (fun _ _ => Except.error "down")).store
      = some { event_id := "en1", content := "s1", link := "l1" } := by
  have ha := (claim_C4 exStore true true (fun _ => Except.error "boom") (Except.ok ())
    (fun _ _ => Except.ok "uri")).1 { event_id := "en1", content := "c1" } "boom"
    (by decide) rfl rfl
  have hb := (claim_C4 exStore false true (fun _ => Except.ok "u") (Except.ok ())
    (fun _ _ => Except.error "down")).2 { event_id := "en1", content := "s1", link := "l1" }
    "down" (by decide) rfl rfl rfl (by decide)
  exact ⟨by decide, ha.1, ha.2.2, hb.2.2⟩

/-- C5 counterexample: dry run does not perform zero remote calls to the
delivery channels — with a pending skeet and Bluesky enabled the command
still performs the Bluesky login call before the dry-run test. -/
theorem claim_C5_counterexample :
    (tootCmd exStore true true true (fun _ => Except.ok "url") (Except.ok ())
      (fun _ _ => Except.ok "uri")).calls = [RemoteCall.bskyLogin]
    ∧ [RemoteCall.bskyLogin] ≠ ([] : List RemoteCall) := by
  exact ⟨by decide, by decide⟩

/-- C5 amended: dry run prints each enabled channel claimed entry content,
leaves the store exactly unchanged (nothing is marked delivered) and
performs no posting call; the only remote call it can make is the Bluesky
login, which the code issues before testing the dry-run flag. -/
theorem claim_C5_amended (s : BotStore) (pm pb : Bool)
    (md : String → Except String String) (login : Except String Unit)
    (bd : String → String → Except String String) :
    (tootCmd s true pm pb md login bd).store = s
    ∧ (∀ c ∈ (tootCmd s true pm pb md login bd).calls, c = RemoteCall.bskyLogin)
    ∧ (∀ t, next_toot s = some t → pm = true →
        t.content ∈ (tootCmd s true pm pb md login bd).outputs)
    ∧ (∀ k, next_skeet s = some k → pb = true → login = Except.ok () →
        k.content ∈ (tootCmd s true pm pb md login bd).outputs) := by
  have hms := mastoStep_dry s pm md
  have hresult := tootCmd_no_masto_error s true pm pb md login bd hms.2.2
  rw [hresult]
  dsimp only
  rw [hms.1]
  refine ⟨bskyStep_dry_store s pb login bd, ?_, ?_, ?_⟩
  · intro c hc
    rw [hms.2.1] at hc
    rw [List.nil_append] at hc
    exact bskyStep_dry_calls s pb login bd c hc
  · intro t ht hpm
    have houts : (mastoStep s true pm md).outputs = [t.content] := by
      subst hpm
      simp [mastoStep, ht]
    rw [houts]
    exact List.mem_append_left _ (List.mem_cons_self _ _)
  · intro k hk hpb hlog
    subst hpb
    subst hlog
    have houts : (bskyStep s true true (Except.ok ()) bd).outputs
        = [k.content, cardRepr k.link] := by
      simp [bskyStep, hk]
    rw [houts]
    exact List.mem_append_right _ (List.mem_cons_self _ _)

/-- C6 counterexample: with both channels enabled and pending entries in
both tables, a Mastodon delivery failure prevents the Bluesky entry from
being delivered in the same invocation (three skeets stay pending), while
the identical store with a succeeding Mastodon deliverer gets its oldest
skeet delivered (two stay pending): the Mastodon outcome does affect the
Bluesky channel. -/
theorem claim_C6_counterexample :
    ((tootCmd exStore false true true (fun _ => Except.error "boom") (Except.ok ())
        (fun _ _ => Except.ok "uri")).store.skeets.filter (fun r => r.pending)).length = 3
    ∧ ((tootCmd exStore false true true (fun _ => Except.ok "url") (Except.ok ())
        (fun _ _ => Except.ok "uri")).store.skeets.filter (fun r => r.pending)).length = 2 := by
  exact ⟨by decide, by decide⟩

/-- C6 amended: the Bluesky collaborators never affect the Mastodon
channel outcome (Mastodon runs first), and whenever the Mastodon section
raises nothing, the Bluesky channel outcome (store rows, remote calls,
propagated error) is exactly that of running the Bluesky section alone;
only a raised Mastodon failure aborts before the Bluesky section runs. -/
theorem claim_C6_amended (s : BotStore) (dr pm pb : Bool)
    (md : String → Except String String) (login login2 : Except String Unit)
    (bd bd2 : String → String → Except String String) :
    (tootCmd s dr pm pb md login bd).store.toots
      = (tootCmd s dr pm pb md login2 bd2).store.toots
    ∧ (tootCmd s dr pm pb md login bd).calls.filter (fun c => !(isBskyCall c))
      = (tootCmd s dr pm pb md login2 bd2).calls.filter (fun c => !(isBskyCall c))
    ∧ ((mastoStep s dr pm md).error = none →
        (tootCmd s dr pm pb md login bd).store.skeets
          = (bskyStep s dr pb login bd).store.skeets
        ∧ (tootCmd s dr pm pb md login bd).calls.filter isBskyCall
          = (bskyStep s dr pb login bd).calls
        ∧ (tootCmd s dr pm pb md login bd).error = (bskyStep s dr pb login bd).error) := by
  refine ⟨?_, ?_, ?_⟩
  · rw [tootCmd_toots, tootCmd_toots]
  · rw [tootCmd_calls_masto, tootCmd_calls_masto]
  · intro herr
    have hresult := tootCmd_no_masto_error s dr pm pb md login bd herr
    have hcong := bskyStep_congr_skeets (mastoStep_skeets s dr pm md) dr pb login bd
    rw [hresult]
    refine ⟨hcong.1, ?_, hcong.2.2.2⟩
    dsimp only
    rw [List.filter_append]
    have h1 : (mastoStep s dr pm md).calls.filter isBskyCall = [] := by
      rw [List.filter_eq_nil_iff]
      intro c hc
      simp [mastoStep_calls_not_bsky s dr pm md c hc]
    have h2 : (bskyStep (mastoStep s dr pm md).store dr pb login bd).calls.filter isBskyCall
        = (bskyStep (mastoStep s dr pm md).store dr pb login bd).calls := by
      apply List.filter_eq_self.mpr
      intro c hc
      simp [bskyStep_calls_bsky (mastoStep s dr pm md).store dr pb login bd c hc]
    rw [h1, h2, hcong.2.2.1]
    simp

/-- Witness for claim_C6_amended at exStore: when Mastodon succeeds, the
Bluesky outcome matches running the Bluesky section alone, and changing
the Bluesky collaborators never changes the toots table. -/
theorem claim_C6_witness :
    (tootCmd exStore false true true (fun _ => Except.ok "url") (Except.ok ())
      (fun _ _ => Except.ok "uri")).store.skeets
      = (bskyStep exStore false true (Except.ok ())
          (fun _ _ => Except.ok "uri")).store.skeets
    ∧ (tootCmd exStore false true true (fun _ => Except.ok "url") (Except.ok ())
        (fun _ _ => Except.ok "uri")).store.toots
      = (tootCmd exStore false true true (fun _ => Except.ok "url") (Except.error "x")
          (fun _ _ => Except.error "down")).store.toots := by
  have h := claim_C6_amended exStore false true true (fun _ => Except.ok "url")
    (Except.ok ()) (Except.error "x") (fun _ _ => Except.ok "uri")
    (fun _ _ => Except.error "down")
  exact ⟨(h.2.2 (by decide)).1, h.1⟩

/-- Witness for claim_C5_amended at exStore: dry run leaves the store
unchanged and prints both claimed contents. -/
theorem claim_C5_witness :
    (tootCmd exStore true true true (fun _ => Except.ok "url") (Except.ok ())
      (fun _ _ => Except.ok "uri")).store = exStore
    ∧ "c1" ∈ (tootCmd exStore true true true (fun _ => Except.ok "url") (Except.ok ())
        (fun _ _ => Except.ok "uri")).outputs
    ∧ "s1" ∈ (tootCmd exStore true true true (fun _ => Except.ok "url") (Except.ok ())
        (fun _ _ => Except.ok "uri")).outputs := by
  have h := claim_C5_amended exStore true true (fun _ => Except.ok "url") (Except.ok ())
    (fun _ _ => Except.ok "uri")
  exact ⟨h.1, h.2.2.1 { event_id := "en1", content := "c1" } (by decide) rfl,
    h.2.2.2 { event_id := "en1", content := "s1", link := "l1" } (by decide) rfl rfl⟩

/-! String helpers for the location and truncation laws. -/

theorem string_ne_empty_of_append_right {a b : String} (hb : b ≠ "") :
    a ++ b ≠ "" := by
  intro h
  apply hb
  have hd := congrArg String.data h
  rw [String.data_append] at hd
  rcases List.append_eq_nil.mp hd with ⟨_, h2⟩
  exact String.ext h2

theorem truthy_getD {o : Option String} (h : truthy o = true) : o.getD "" ≠ "" := by
  cases o with
  | none => simp [truthy] at h
  | some s => simpa [truthy] using h

/-- C9: fallback location law. For every EventInfo, location follows the
priority order facility+state, facility, city+state, city, state, unknown
sentinel (with Python truthiness deciding presence), never returns the
empty string, and never depends on the event date. -/
theorem claim_C9 (e : EventInfo) :
    (∀ f st, e.facility = some f → f ≠ "" → e.state = some st → st ≠ "" →
      location e = f ++ " (" ++ st ++ ")")
    ∧ (∀ f, e.facility = some f → f ≠ "" → truthy e.state = false →
      location e = f)
    ∧ (∀ c st, truthy e.facility = false → e.city = some c → c ≠ "" →
        e.state = some st → st ≠ "" → location e = c ++ ", " ++ st)
    ∧ (∀ c, truthy e.facility = false → e.city = some c → c ≠ "" →
        truthy e.state = false → location e = c)
    ∧ (∀ st, truthy e.facility = false → truthy e.city = false →
        e.state = some st → st ≠ "" → location e = st)
    ∧ (truthy e.facility = false → truthy e.city = false → truthy e.state = false →
        location e = "Location unknown")
    ∧ location e ≠ ""
    ∧ (∀ d, location { e with event_date := d } = location e) := by
  obtain ⟨d0, fac, cty, stt, hl, ct⟩ := e
  refine ⟨?_, ?_, ?_, ?_, ?_, ?_, ?_, fun d => rfl⟩
  · intro f st hf hfne hst hstne
    dsimp only at hf hst
    subst hf
    subst hst
    simp [location, truthy, hfne, hstne]
  · intro f hf hfne hsf
    dsimp only at hf hsf
    subst hf
    have h1 : truthy (some f) = true := by simp [truthy, hfne]
    simp [location, h1, hsf]
  · intro c st htf hc hcne hst hstne
    dsimp only at htf hc hst
    subst hc
    subst hst
    have h1 : truthy (some c) = true := by simp [truthy, hcne]
    have h2 : truthy (some st) = true := by simp [truthy, hstne]
    simp [location, htf, h1, h2]
  · intro c htf hc hcne hsf
    dsimp only at htf hc hsf
    subst hc
    have h1 : truthy (some c) = true := by simp [truthy, hcne]
    simp [location, htf, h1, hsf]
  · intro st htf htc hst hstne
    dsimp only at htf htc hst
    subst hst
    have h1 : truthy (some st) = true := by simp [truthy, hstne]
    simp [location, htf, htc, h1]
  · intro htf htc hsf
    dsimp only at htf htc hsf
    simp [location, htf, htc, hsf]
  · unfold location
    split_ifs with h1 h2 h3 h4 h5
    · exact string_ne_empty_of_append_right (by decide)
    · exact truthy_getD h2
    · exact string_ne_empty_of_append_right (truthy_getD h3.2)
    · exact truthy_getD h4
    · exact truthy_getD h5
    · decide

/-- Witness for claim_C9 at concrete EventInfo values. -/
theorem claim_C9_witness :
    location { event_date := none, facility := some "F", city := none, state := some "S", headline := "h", content := "c" } = "F (S)"
    ∧ location { event_date := none, facility := none, city := some "C", state := none, headline := "h", content := "c" } = "C"
    ∧ location { event_date := none, facility := some "", city := none, state := none, headline := "h", content := "c" } ≠ "" := by
  refine ⟨(claim_C9 _).1 "F" "S" rfl (by decide) rfl (by decide),
    (claim_C9 _).2.2.2.1 "C" (by decide) rfl (by decide) (by decide),
    (claim_C9 _).2.2.2.2.2.2.1⟩

theorem pyStrip_length_le (l : List Char) : (pyStrip l).length ≤ l.length := by
  unfold pyStrip
  rw [List.length_reverse]
  calc (List.dropWhile Char.isWhitespace
          (List.dropWhile Char.isWhitespace l).reverse).length
      ≤ (List.dropWhile Char.isWhitespace l).reverse.length :=
        (List.dropWhile_suffix _).sublist.length_le
    _ = (List.dropWhile Char.isWhitespace l).length := List.length_reverse _
    _ ≤ l.length := (List.dropWhile_suffix _).sublist.length_le

theorem pyTake_length_le {l : List Char} {n : Int} (h : 0 ≤ n) :
    (pyTake l n).length ≤ n.toNat := by
  unfold pyTake
  rw [if_pos h, List.length_take]
  exact min_le_left _ _

/-- C8: truncation laws of the two channel formatters. format_toot keeps
the stripped non-link portion within maxlen - 23 - 3 characters and
appends exactly one ellipsis iff the CRLF-normalized text exceeded that
budget, then the newline separator and the url; truncate returns the text
unchanged when it fits and otherwise exactly maxlen characters ending in
an appended ellipsis. The hypotheses cover every call site (maxlen
defaults 500 and 300). -/
theorem claim_C8 (text url : List Char) (m1 m2 : Int)
    (h1 : 26 ≤ m1) (h2 : 1 ≤ m2) :
    (∃ pre : List Char, pre.length ≤ (m1 - 26).toNat
      ∧ format_toot text url m1
          = pre ++ (if (m1 - 26 : Int) < ((replaceCRLF text).length : Int)
              then [Char.ofNat 8230] else [])
            ++ '\n' :: url)
    ∧ ((text.length : Int) ≤ m2 → truncate text m2 = text)
    ∧ (m2 < (text.length : Int) →
        (truncate text m2).length = m2.toNat
        ∧ ∃ pre : List Char, truncate text m2 = pre ++ [Char.ofNat 8230]) := by
  have he : m1 - 23 - 3 = m1 - 26 := by ring
  refine ⟨⟨pyStrip (pyTake (replaceCRLF text) (m1 - 26)), ?_, ?_⟩, ?_, ?_⟩
  · exact le_trans (pyStrip_length_le _) (pyTake_length_le (by omega))
  · simp only [format_toot]
    rw [he]
  · intro hfit
    unfold truncate
    rw [if_neg (not_lt.mpr hfit)]
  · intro hgt
    constructor
    · unfold truncate pyTake
      rw [if_pos hgt, if_pos (by omega : (0 : Int) ≤ m2 - 1)]
      rw [List.length_append, List.length_take]
      simp only [List.length_singleton]
      omega
    · refine ⟨pyTake text (m2 - 1), ?_⟩
      unfold truncate
      rw [if_pos hgt]

/-- Witness for claim_C8 at small concrete inputs. -/
theorem claim_C8_witness :
    (26 : Int) ≤ 27 ∧ (1 : Int) ≤ 2 ∧ (1 : Int) ≤ 3
    ∧ (truncate ['a', 'b', 'c'] 2).length = 2
    ∧ truncate ['a', 'b'] 3 = ['a', 'b'] := by
  refine ⟨by decide, by decide, by decide,
    ((claim_C8 ['a', 'b', 'c'] [] 27 2 (by decide) (by decide)).2.2 (by decide)).1,
    (claim_C8 ['a', 'b'] [] 27 3 (by decide) (by decide)).2.1 (by decide)⟩

end Whoopsie
